import Mathlib

/-!
Verification development for the Sanetaka language toolchain
(crates `sntk_core`, `sntk_compiler`, `sntk_ir`, binary `sntkc`).

The Rust sources are embedded shallowly:
* pure functions become Lean functions;
* `&mut self` state is threaded explicitly;
* fallible code returns `Except`;
* a Rust `panic!` / `unimplemented!()` / `todo!()` becomes an explicit
  `panicked` outcome, and unbounded recursion is modelled with fuel,
  exhaustion being the explicit `outOfFuel` outcome;
* Rust's `f64` literal payloads are modelled exactly where the claims need
  them: the IR interpreter's numbers are modelled as `Int` (every program
  relevant here computes only on integral values, on which `f64`
  arithmetic and the `as usize` cast are exact), and the lexer's number
  payload as `Rat`;
* `HashMap` tables are modelled as association lists whose lookup returns
  the most recent insertion, matching `HashMap::insert`/`get` observably.

Each embedded definition carries the name of its Rust original.  Types and
functions that live in repository files that are not part of the sources
(`sntk_core/src/parser/ast.rs`, `sntk_ir/src/instruction.rs`,
`sntk_ir/src/builtin.rs`, the error enums of the tree-IR variant, and the
`tc` module of the stack compiler) are reconstructed from the
specification and from how the present sources use them; each such
definition says so in its doc comment.
-/

namespace Sanetaka

/-- Decidable equality for `Except` results, so that concrete runs of the
embedded functions can be settled by `decide`. -/
def exceptDecEq {ε α : Type} [DecidableEq ε] [DecidableEq α] : DecidableEq (Except ε α)
  | .ok a, .ok b =>
    match decEq a b with
    | isTrue h => isTrue (by rw [h])
    | isFalse h => isFalse (by intro hh; cases hh; exact h rfl)
  | .error a, .error b =>
    match decEq a b with
    | isTrue h => isTrue (by rw [h])
    | isFalse h => isFalse (by intro hh; cases hh; exact h rfl)
  | .ok _, .error _ => isFalse (by intro hh; cases hh)
  | .error _, .ok _ => isFalse (by intro hh; cases hh)

instance {ε α : Type} [DecidableEq ε] [DecidableEq α] : DecidableEq (Except ε α) := exceptDecEq

namespace Core

/-- Modelled from the spec: `sntk_core::parser::ast::Position`, a
`(line, column)` pair attached to tokens, AST nodes and errors
(`Position(usize, usize)` with `Position::new`). -/
structure Position where
  line : Nat
  column : Nat
  deriving DecidableEq, Repr

/-- Token kinds of `sntk_core/src/tokenizer/token.rs` (`enum Tokens`).
The enum in that file lacks several constructors that
`sntk_core/src/parser/parser.rs` pattern-matches on (`Arrow`, `Type`,
`NumberType`, `StringType`, `BooleanType`, `ObjectType`, `Boolean`, and a
payload on `ILLEGAL`); those extra constructors are modelled from the
spec's token table so that the parser of the sources can be embedded.
The lexer of the sources never produces them. -/
inductive Tokens where
  | ILLEGAL (c : String)
  | EOF
  | IDENT (s : String)
  | Number (n : Rat)
  | String (s : String)
  | Boolean (b : Bool)
  | Comment (s : String)
  | Assign | Plus | Minus | Bang | Asterisk | Slash | Percent
  | Quote | SingleQuote
  | Comma | Colon | Semicolon
  | LParen | RParen | LBrace | RBrace | LBracket | RBracket
  | LT | GT | LTE | GTE | EQ | NEQ
  | Let | If | Else | Return | Function
  | Type | Arrow
  | NumberType | StringType | BooleanType | ObjectType
  deriving DecidableEq, Repr

/-- `Tokens::from<T: Into<String>>` of `token.rs`: keyword recognition for
identifier text.  Note that this variant recognizes only
`let`/`if`/`else`/`return`/`fn`. -/
def tokens_from (s : String) : Tokens :=
  match s with
  | "let" => .Let
  | "if" => .If
  | "else" => .Else
  | "return" => .Return
  | "fn" => .Function
  | _ => .IDENT s

/-- `Token` of `token.rs`: a token kind with its source position pair. -/
structure Token where
  token_type : Tokens
  position : Nat × Nat
  deriving DecidableEq, Repr

/-- `Token::default()` (`token_type: EOF, position: (0, 0)`). -/
def Token.default : Token := ⟨.EOF, (0, 0)⟩

end Core

namespace Ir

/-- Identifiers (`sntk_ir::instruction::Identifier`, an alias of `String`;
modelled from how `checker.rs` and `interpreter.rs` use it). -/
abbrev Identifier := String

mutual
/-- Modelled from the spec: `DataType` of `sntk_core/src/parser/ast.rs`
as used by `sntk_compiler/src/checker.rs` (variants `Number`, `String`,
`Boolean`, `Unknown`, `Array(T)`, `Fn(FunctionType)`, `Generic`,
`Custom(name)`).  Equality (`PartialEq`) is structural. -/
inductive DataType where
  | Number
  | String
  | Boolean
  | Unknown
  | Array (t : DataType)
  | Fn (ft : FunctionType)
  | Generic (g : Generic)
  | Custom (name : String)

/-- Modelled from the spec: `FunctionType(Option<generics>, Vec<(DataType,
bool)>, Box<DataType>)` — parameter types each with a spread flag, plus the
return type, as destructured by `checker.rs`. -/
inductive FunctionType where
  | mk (generics : Option (List String)) (parameters : List (DataType × Bool)) (ret : DataType)

/-- Modelled from the spec: `Generic(base, args)` of the AST data-type
grammar. -/
inductive Generic where
  | mk (base : DataType) (args : List DataType)
end

mutual
def DataType.beq : DataType → DataType → Bool
  | .Number, .Number => true
  | .String, .String => true
  | .Boolean, .Boolean => true
  | .Unknown, .Unknown => true
  | .Array a, .Array b => DataType.beq a b
  | .Fn a, .Fn b => FunctionType.beq a b
  | .Generic a, .Generic b => Generic.beq a b
  | .Custom a, .Custom b => a == b
  | _, _ => false
termination_by structural a => a

def FunctionType.beq : FunctionType → FunctionType → Bool
  | .mk g1 p1 r1, .mk g2 p2 r2 => g1 == g2 && DataType.beqParams p1 p2 && DataType.beq r1 r2
termination_by structural a => a

def DataType.beqParams : List (DataType × Bool) → List (DataType × Bool) → Bool
  | [], [] => true
  | (t1, s1) :: r1, (t2, s2) :: r2 => DataType.beq t1 t2 && s1 == s2 && DataType.beqParams r1 r2
  | _, _ => false
termination_by structural a => a

def Generic.beq : Generic → Generic → Bool
  | .mk b1 a1, .mk b2 a2 => DataType.beq b1 b2 && DataType.beqList a1 a2
termination_by structural a => a

def DataType.beqList : List DataType → List DataType → Bool
  | [], [] => true
  | t1 :: r1, t2 :: r2 => DataType.beq t1 t2 && DataType.beqList r1 r2
  | _, _ => false
termination_by structural a => a
end

mutual
theorem DataType.beq_iff : ∀ a b : DataType, DataType.beq a b = true ↔ a = b
  | .Number, b => by cases b <;> simp [DataType.beq]
  | .String, b => by cases b <;> simp [DataType.beq]
  | .Boolean, b => by cases b <;> simp [DataType.beq]
  | .Unknown, b => by cases b <;> simp [DataType.beq]
  | .Array a, b => by
      cases b <;> simp [DataType.beq]
      try exact DataType.beq_iff a _
  | .Fn f, b => by
      cases b <;> simp [DataType.beq]
      try exact FunctionType.beqFn_iff f _
  | .Generic g, b => by
      cases b <;> simp [DataType.beq]
      try exact Generic.beqGeneric_iff g _
  | .Custom a, b => by cases b <;> simp [DataType.beq]

theorem FunctionType.beqFn_iff : ∀ a b : FunctionType, FunctionType.beq a b = true ↔ a = b
  | .mk g1 p1 r1, .mk g2 p2 r2 => by
      simp [FunctionType.beq]
      rw [DataType.beqParams_iff p1 p2, DataType.beq_iff r1 r2]
      try tauto

theorem DataType.beqParams_iff :
    ∀ a b : List (DataType × Bool), DataType.beqParams a b = true ↔ a = b
  | [], b => by cases b <;> simp [DataType.beqParams]
  | (t1, s1) :: r1, b => by
      cases b with
      | nil => simp [DataType.beqParams]
      | cons hd tl =>
        obtain ⟨t2, s2⟩ := hd
        simp [DataType.beqParams]
        rw [DataType.beq_iff t1 t2, DataType.beqParams_iff r1 tl]
        try tauto

theorem Generic.beqGeneric_iff : ∀ a b : Generic, Generic.beq a b = true ↔ a = b
  | .mk b1 a1, .mk b2 a2 => by
      simp [Generic.beq]
      rw [DataType.beq_iff b1 b2, DataType.beqList_iff a1 a2]
      try tauto

theorem DataType.beqList_iff : ∀ a b : List DataType, DataType.beqList a b = true ↔ a = b
  | [], b => by cases b <;> simp [DataType.beqList]
  | t1 :: r1, b => by
      cases b with
      | nil => simp [DataType.beqList]
      | cons hd tl =>
        simp [DataType.beqList]
        rw [DataType.beq_iff t1 hd, DataType.beqList_iff r1 tl]
        try tauto
end

instance : DecidableEq DataType := fun a b =>
  decidable_of_iff (DataType.beq a b = true) (DataType.beq_iff a b)

mutual
/-- Modelled from the spec: the `Display` rendering of `DataType` used by
the checker's error payloads (surface spellings `number`, `string`,
`boolean`, `T[]`, `fn(..) -> T`, alias name). -/
def DataType.to_string : DataType → String
  | .Number => "number"
  | .String => "string"
  | .Boolean => "boolean"
  | .Unknown => "unknown"
  | .Array t => DataType.to_string t ++ "[]"
  | .Fn f => FunctionType.to_string f
  | .Generic (.mk base args) => DataType.to_string base ++ "<" ++ DataType.joinList args ++ ">"
  | .Custom name => name
termination_by structural t => t

def FunctionType.to_string : FunctionType → String
  | .mk _ params ret => "fn(" ++ DataType.joinParams params ++ ") -> " ++ DataType.to_string ret
termination_by structural t => t

def DataType.joinParams : List (DataType × Bool) → String
  | [] => ""
  | [(t, s)] => (if s then "..." else "") ++ DataType.to_string t
  | (t, s) :: rest => (if s then "..." else "") ++ DataType.to_string t ++ ", " ++ DataType.joinParams rest
termination_by structural l => l

def DataType.joinList : List DataType → String
  | [] => ""
  | [t] => DataType.to_string t
  | t :: rest => DataType.to_string t ++ ", " ++ DataType.joinList rest
termination_by structural l => l
end

/-- Modelled from the spec: `Parameter` of the AST (`name`, `data_type`,
`spread` flag); `checker.rs` reads `data_type`/`spread`, the interpreter
reads `name.value` (the identifier text). -/
structure Parameter where
  name : String
  data_type : DataType
  spread : Bool
  deriving DecidableEq

mutual
/-- Modelled from the spec: `IrExpression` of
`sntk_ir/src/instruction.rs`, exactly the variants matched by
`checker.rs` and `interpreter.rs`. -/
inductive IrExpression where
  | Identifier (name : Identifier)
  | Literal (value : LiteralValue)
  | Block (instructions : List Instruction)
  | If (condition : IrExpression) (consequence : IrExpression) (alternative : Option IrExpression)
  | Call (function : IrExpression) (arguments : List IrExpression)
  | Index (left : IrExpression) (index : IrExpression)
  | Prefix (operator : Core.Tokens) (right : IrExpression)
  | Infix (left : IrExpression) (operator : Core.Tokens) (right : IrExpression)

/-- Modelled from the spec: `LiteralValue` of `instruction.rs`.  The
function literal carries parameters, body instructions, declared return
type, and the optional captured environment, populated at call time. -/
inductive LiteralValue where
  | Number (n : Int)
  | String (s : String)
  | Boolean (b : Bool)
  | Array (elements : List IrExpression)
  | Function (parameters : List Parameter) (body : List Instruction)
      (ret : DataType) (environment : Option IrEnvironment)

/-- Modelled from the spec: `Instruction { instruction, position }` of
`instruction.rs`. -/
inductive Instruction where
  | mk (instruction : InstructionType) (position : Nat × Nat)

/-- Modelled from the spec: `InstructionType` of `instruction.rs`
(`StoreName`, `Return`, `Expression`, `None`). -/
inductive InstructionType where
  | StoreName (name : Identifier) (e : IrExpression)
  | Return (e : IrExpression)
  | Expression (e : IrExpression)
  | None

/-- `IrEnvironment` of `sntk_ir/src/interpreter.rs`: a `HashMap` of values
plus an optional (cloned) parent, modelled as an association list whose
lookup returns the most recent insertion. -/
inductive IrEnvironment where
  | mk (values : List (Identifier × LiteralValue)) (parent : Option IrEnvironment)
end

def Instruction.instruction : Instruction → InstructionType
  | .mk i _ => i

def Instruction.position : Instruction → Nat × Nat
  | .mk _ p => p

/-- `IrEnvironment::new(parent)` — the parent frame is cloned into the
child (`parent.map(|parent| Box::new(parent.clone()))`). -/
def IrEnvironment.new (parent : Option IrEnvironment) : IrEnvironment :=
  .mk [] parent

/-- Association-list lookup for one frame (`HashMap::get`): most recent
insertion wins. -/
def IrEnvironment.getLocal : List (Identifier × LiteralValue) → Identifier → Option LiteralValue
  | [], _ => none
  | (k, v) :: rest, name => if k = name then some v else IrEnvironment.getLocal rest name

/-- `IrEnvironment::get`: look in the current frame, then walk the parent
chain. -/
def IrEnvironment.get : IrEnvironment → Identifier → Option LiteralValue
  | .mk values parent, name =>
    match IrEnvironment.getLocal values name with
    | some value => some value
    | none =>
      match parent with
      | some p => IrEnvironment.get p name
      | none => none

/-- `IrEnvironment::set`: insert into the current frame only. -/
def IrEnvironment.set : IrEnvironment → Identifier → LiteralValue → IrEnvironment
  | .mk values parent, name, value => .mk ((name, value) :: values) parent

end Ir

namespace Checker

open Ir

/-- Modelled from the spec: the kinds of type errors
(`TypeErrorKind` used by `checker.rs`; the spec's §7 taxonomy).  String
payloads are the `to_string()` forms the checker passes. -/
inductive TypeErrorKind where
  | ExpectedDataType (expected got : String)
  | ExpectedArguments (expected got : Nat)
  | UndefinedIdentifier (name : String)
  | UndefinedType (name : String)
  | UnknownArrayType
  | NotCallable (t : String)
  | NotIndexable (t : String)
  | SpreadParameterMustBeLast
  | Unsupported
  deriving DecidableEq, Repr

/-- Modelled from the spec: `TypeError::new(kind, position)` as constructed
throughout `checker.rs`. -/
structure TypeError where
  kind : TypeErrorKind
  position : Core.Position
  deriving DecidableEq, Repr

/-- Failure modes of the embedded checker: a `TypeError`, or a Rust panic
(`unreachable!()`). -/
inductive CheckerFailure where
  | typeError (e : TypeError)
  | panicked
  | outOfFuel
  deriving DecidableEq, Repr

/-- `CompileResult<T>` as used by `checker.rs` (`Result<T, CompileError>`
specialized to the type errors the checker produces, plus the explicit
panic outcome). -/
abbrev CheckResult (α : Type) := Except CheckerFailure α

/-- `DeclaredTypes` of `checker.rs`: identifier → data type, with a cloned
parent chain. -/
inductive DeclaredTypes where
  | mk (types : List (Identifier × DataType)) (parent : Option DeclaredTypes)

/-- `DeclaredTypes::new(parent)`. -/
def DeclaredTypes.new (parent : Option DeclaredTypes) : DeclaredTypes := .mk [] parent

/-- One-frame lookup (`HashMap::get`), most recent insertion first. -/
def DeclaredTypes.getLocal : List (Identifier × DataType) → Identifier → Option DataType
  | [], _ => none
  | (k, v) :: rest, name => if k = name then some v else DeclaredTypes.getLocal rest name

/-- `DeclaredTypes::get`: current frame, then parent chain. -/
def DeclaredTypes.get : DeclaredTypes → Identifier → Option DataType
  | .mk types parent, name =>
    match DeclaredTypes.getLocal types name with
    | some value => some value
    | none =>
      match parent with
      | some p => DeclaredTypes.get p name
      | none => none

/-- `DeclaredTypes::set`: insert into the current frame. -/
def DeclaredTypes.set : DeclaredTypes → Identifier → DataType → DeclaredTypes
  | .mk types parent, name, value => .mk ((name, value) :: types) parent

/-- `CustomTypes` of `checker.rs`: alias name → data type, with a cloned
parent chain (structurally identical to `DeclaredTypes`, as in the
source). -/
inductive CustomTypes where
  | mk (types : List (Identifier × DataType)) (parent : Option CustomTypes)

/-- `CustomTypes::new(parent)`. -/
def CustomTypes.new (parent : Option CustomTypes) : CustomTypes := .mk [] parent

/-- One-frame lookup (`HashMap::get`), most recent insertion first. -/
def CustomTypes.getLocal : List (Identifier × DataType) → Identifier → Option DataType
  | [], _ => none
  | (k, v) :: rest, name => if k = name then some v else CustomTypes.getLocal rest name

/-- `CustomTypes::get`: current frame, then parent chain. -/
def CustomTypes.get : CustomTypes → Identifier → Option DataType
  | .mk types parent, name =>
    match CustomTypes.getLocal types name with
    | some value => some value
    | none =>
      match parent with
      | some p => CustomTypes.get p name
      | none => none

/-- `CustomTypes::set`: insert into the current frame. -/
def CustomTypes.set : CustomTypes → Identifier → DataType → CustomTypes
  | .mk types parent, name, value => .mk ((name, value) :: types) parent

/-- `custom_data_type` of `checker.rs`: resolve a `Custom` alias through
the custom-type scope (one level), resolve a function type's return type
recursively, and leave every other type unchanged. -/
def custom_data_type (data_type : DataType) (customs : CustomTypes) (position : Core.Position) :
    CheckResult DataType :=
  match data_type with
  | .Custom name =>
    match customs.get name with
    | some custom => .ok custom
    | none => .error (.typeError ⟨.UndefinedType name, position⟩)
  | .Fn (.mk generics parameters return_type) =>
    (custom_data_type return_type customs position).bind fun rt =>
      .ok (.Fn (.mk generics parameters rt))
  | _ => .ok data_type

/-- Lines 78–81 of `checker.rs`: the optional contextual type is resolved
through `custom_data_type` before any branch runs. -/
def resolve_option_data_type (data_type : Option DataType) (customs : CustomTypes)
    (position : Core.Position) : CheckResult (Option DataType) :=
  match data_type with
  | some dt => (custom_data_type dt customs position).bind fun t => .ok (some t)
  | none => .ok none

/-- Line 218 of `checker.rs`: `custom_data_type(&result?, customs,
position)` applied to a branch's result. -/
def apply_custom (r : CheckResult DataType) (customs : CustomTypes) (position : Core.Position) :
    CheckResult DataType :=
  r.bind fun t => custom_data_type t customs position

/-- Lines 89–101 of `checker.rs`: the `Block` branch inspects
`block.last()`; a last `Return`/`StoreName` recurses into its expression
(whose result then passes through the function's final
`custom_data_type`), every other shape — including the empty block —
early-returns `Ok(DataType::Boolean)`, skipping that final resolution.
`get_type` is the recursive call of the enclosing checker. -/
def block_last_type (get_type : IrExpression → CheckResult DataType) (customs : CustomTypes)
    (position : Core.Position) (block : List Instruction) : CheckResult DataType :=
  match block with
  | [] => .ok DataType.Boolean
  | [instruction] =>
    match instruction with
    | .mk (.Return e) _ | .mk (.StoreName _ e) _ =>
      apply_custom (get_type e) customs position
    | _ => .ok DataType.Boolean
  | _ :: rest => block_last_type get_type customs position rest

/-- Lines 233–246 of `checker.rs`: the element-scan loop of the `Array`
branch of `get_type_from_literal_value`, adopting the first element's type
and rejecting any later mismatch with `ExpectedDataType(element_type,
data_type)`.  `get_type` is the recursive call of the enclosing checker,
applied with the contextual type the loop passes down. -/
def array_elements_type (get_type : IrExpression → CheckResult DataType)
    (position : Core.Position) (elements : List IrExpression) (element_type : DataType) :
    CheckResult DataType :=
  match elements with
  | [] => .ok element_type
  | element :: rest =>
    (get_type element).bind fun dt =>
    if element_type = DataType.Unknown then
      array_elements_type get_type position rest dt
    else if element_type ≠ dt then
      .error (.typeError ⟨.ExpectedDataType element_type.to_string dt.to_string, position⟩)
    else array_elements_type get_type position rest element_type

/-- Lines 131–155 of `checker.rs`: the `zip(arguments).enumerate()` walk
of the `Call` branch.  Returns `some n` when a spread parameter set
`arguments_len = index + 1` and broke out of the loop, `none` when the
loop ran off the end of the zip. -/
def check_call_arguments (get_type : IrExpression → CheckResult DataType)
    (position : Core.Position) (parameters : List (DataType × Bool))
    (arguments : List IrExpression) (index : Nat) : CheckResult (Option Nat) :=
  match parameters, arguments with
  | (parameter, spread) :: ps, argument :: args =>
    (get_type argument).bind fun argument_type =>
    if spread then
      if parameter ≠ argument_type then
        .error (.typeError
          ⟨.ExpectedDataType parameter.to_string argument_type.to_string, position⟩)
      else .ok (some (index + 1))
    else
      if parameter ≠ argument_type then
        .error (.typeError
          ⟨.ExpectedDataType parameter.to_string argument_type.to_string, position⟩)
      else check_call_arguments get_type position ps args (index + 1)
  | _, _ => .ok none

mutual
/-- `get_type_from_ir_expression` of `checker.rs`.  The contextual type is
resolved first (lines 78–81); every branch computes `result` and the
function returns `custom_data_type(&result?, ..)` (line 218), except the
`Block` branch's early `return Ok(DataType::Boolean)` paths, which skip
that final resolution (see `block_last_type`).  The source recursion is
unbounded; here it consumes one unit of fuel per recursive step. -/
def get_type_from_ir_expression : Nat → IrExpression → DeclaredTypes → CustomTypes →
    Option DataType → Core.Position → CheckResult DataType
  | 0, _, _, _, _, _ => .error .outOfFuel
  | fuel + 1, expression, declares, customs, data_type, position =>
    (resolve_option_data_type data_type customs position).bind fun data_type =>
    match expression with
    | .Identifier identifier =>
      apply_custom
        (match declares.get identifier with
         | some dt => .ok dt
         | none => .error (.typeError ⟨.UndefinedIdentifier identifier, position⟩))
        customs position
    | .Literal literal =>
      apply_custom (get_type_from_literal_value fuel literal declares customs data_type position)
        customs position
    | .Block block =>
      block_last_type
        (fun e => get_type_from_ir_expression fuel e declares customs data_type position)
        customs position block
    | .If condition consequence alternative =>
      apply_custom
        ((get_type_from_ir_expression fuel condition declares customs data_type position).bind
          fun condition_type =>
         (get_type_from_ir_expression fuel consequence declares customs data_type position).bind
          fun consequence_type =>
         (match alternative with
          | some alt => get_type_from_ir_expression fuel alt declares customs data_type position
          | none => .ok DataType.Boolean).bind fun alternative_type =>
         if condition_type = DataType.Boolean then
           if consequence_type = alternative_type then .ok consequence_type
           else .error (.typeError
             ⟨.ExpectedDataType consequence_type.to_string alternative_type.to_string, position⟩)
         else .error (.typeError
           ⟨.ExpectedDataType DataType.Boolean.to_string condition_type.to_string, position⟩))
        customs position
    | .Call function arguments =>
      apply_custom
        ((get_type_from_ir_expression fuel function declares customs data_type position).bind
          fun function_type =>
         match function_type with
         | .Fn (.mk _ parameters return_type) =>
           (check_call_arguments
               (fun e => get_type_from_ir_expression fuel e declares customs data_type position)
               position parameters arguments 0).bind fun broke =>
           let arguments_len := match broke with | some n => n | none => arguments.length
           if parameters.length ≠ arguments_len then
             .error (.typeError ⟨.ExpectedArguments parameters.length arguments.length, position⟩)
           else .ok return_type
         | _ => .error (.typeError ⟨.NotCallable function_type.to_string, position⟩))
        customs position
    | .Index left index =>
      apply_custom
        ((get_type_from_ir_expression fuel left declares customs data_type position).bind
          fun left_type =>
         (get_type_from_ir_expression fuel index declares customs data_type position).bind
          fun index_type =>
         match left_type with
         | .Array element =>
           if index_type = DataType.Number then .ok element
           else .error (.typeError
             ⟨.ExpectedDataType DataType.Number.to_string index_type.to_string, position⟩)
         | _ => .error (.typeError ⟨.NotIndexable left_type.to_string, position⟩))
        customs position
    | .Prefix _ e =>
      apply_custom (get_type_from_ir_expression fuel e declares customs data_type position)
        customs position
    | .Infix left operator right =>
      apply_custom
        ((get_type_from_ir_expression fuel left declares customs data_type position).bind
          fun left_type =>
         (get_type_from_ir_expression fuel right declares customs data_type position).bind
          fun right_type =>
         match operator with
         | .Plus | .Minus | .Asterisk | .Slash | .Percent =>
           if left_type = DataType.Number ∧ right_type = DataType.Number then .ok DataType.Number
           else .error (.typeError
             ⟨.ExpectedDataType DataType.Number.to_string left_type.to_string, position⟩)
         | .EQ | .NEQ | .LT | .GT | .LTE | .GTE =>
           if left_type = right_type then .ok DataType.Boolean
           else .error (.typeError
             ⟨.ExpectedDataType left_type.to_string right_type.to_string, position⟩)
         | _ => .error .panicked)
        customs position

/-- `get_type_from_literal_value` of `checker.rs`.  In the `Function`
branch (lines 273–308) the source recurses via
`IrExpression::Block(body.clone())`; that call is inlined here as the
re-resolution of the contextual type followed by `block_last_type` —
exactly what `get_type_from_ir_expression` does on a `Block`. -/
def get_type_from_literal_value : Nat → LiteralValue → DeclaredTypes → CustomTypes →
    Option DataType → Core.Position → CheckResult DataType
  | 0, _, _, _, _, _ => .error .outOfFuel
  | fuel + 1, literal, declares, customs, data_type, position =>
    match literal with
    | .Number _ => .ok DataType.Number
    | .String _ => .ok DataType.String
    | .Boolean _ => .ok DataType.Boolean
    | .Array elements =>
      (array_elements_type
          (fun e => get_type_from_ir_expression fuel e declares customs data_type position)
          position elements DataType.Unknown).bind fun element_type =>
      match data_type with
      | some dt =>
        ((if element_type = DataType.Unknown then
           match dt with
           | .Array inner => .ok inner
           | _ => .error .panicked
         else .ok element_type : CheckResult DataType)).bind fun element_type =>
        if dt = DataType.Array element_type then
          .error (.typeError
            ⟨.ExpectedDataType dt.to_string (DataType.Array element_type).to_string, position⟩)
        else .ok (DataType.Array element_type)
      | none =>
        if element_type = DataType.Unknown then .error (.typeError ⟨.UnknownArrayType, position⟩)
        else .ok (DataType.Array element_type)
    | .Function parameters body return_type _ =>
      (resolve_option_data_type data_type customs position).bind fun dt2 =>
      (block_last_type
          (fun e => get_type_from_ir_expression fuel e declares customs dt2 position)
          customs position body).bind fun block_return_type =>
      let function_type : DataType :=
        .Fn (.mk none (parameters.map fun p => (p.data_type, p.spread)) block_return_type)
      if return_type ≠ block_return_type then
        .error (.typeError
          ⟨.ExpectedDataType return_type.to_string block_return_type.to_string, position⟩)
      else
        match data_type with
        | some dt =>
          if dt ≠ function_type then
            .error (.typeError ⟨.ExpectedDataType dt.to_string function_type.to_string, position⟩)
          else .ok function_type
        | none => .ok function_type
end

end Checker

namespace Core

/-- Modelled from the spec: the `Display` rendering of `Tokens` used in
runtime-error payloads (`operator.to_string()`). -/
def token_to_string (t : Tokens) : String :=
  match t with
  | .Plus => "+"
  | .Minus => "-"
  | .Bang => "!"
  | .Asterisk => "*"
  | .Slash => "/"
  | .Percent => "%"
  | .Assign => "="
  | .EQ => "=="
  | .NEQ => "!="
  | .LT => "<"
  | .GT => ">"
  | .LTE => "<="
  | .GTE => ">="
  | .Arrow => "->"
  | .IDENT s => s
  | _ => "<token>"

end Core

namespace Ir

/-- Modelled from the spec: `RuntimeErrorKind` of `sntk_ir`
(spec §7 runtime-error taxonomy, with the payloads `interpreter.rs`
passes: names, `to_string()` forms, and the cast index for
`IndexOutOfBounds`). -/
inductive RuntimeErrorKind where
  | UndefinedVariable (name : String)
  | NotAFunction (value : String)
  | NotAnArray (value : String)
  | IndexOutOfBounds (index : Nat)
  | InvalidOperator (op : String)
  | InvalidOperands (left right op : String)
  deriving DecidableEq, Repr

/-- Modelled from the spec: `RuntimeError::new(kind, position)`. -/
structure RuntimeError where
  kind : RuntimeErrorKind
  position : Core.Position
  deriving DecidableEq, Repr

/-- Failure modes of the embedded interpreter: a `RuntimeError`, a Rust
panic (`unreachable!()` on a non-boolean `If` condition), or fuel
exhaustion (the Rust recursion is unbounded). -/
inductive RFailure where
  | err (e : RuntimeError)
  | panicked
  | outOfFuel
  deriving DecidableEq, Repr

/-- `Result<T>` of `interpreter.rs` (`std::result::Result<T,
RuntimeError>`), with the explicit panic/fuel outcomes. -/
abbrev RRes (α : Type) := Except RFailure α

mutual
/-- Modelled from the spec: the `Display` rendering of `LiteralValue` used
in runtime-error payloads (`value.to_string()`): `print` display forms. -/
def LiteralValue.to_string : LiteralValue → String
  | .Number n => toString n
  | .String s => s
  | .Boolean b => if b then "true" else "false"
  | .Array elements => "[" ++ IrExpression.join_to_string elements ++ "]"
  | .Function _ _ _ _ => "<function>"

def IrExpression.to_string : IrExpression → String
  | .Literal v => LiteralValue.to_string v
  | .Identifier name => name
  | _ => "<expression>"

def IrExpression.join_to_string : List IrExpression → String
  | [] => ""
  | [e] => IrExpression.to_string e
  | e :: rest => IrExpression.to_string e ++ ", " ++ IrExpression.join_to_string rest
end

/-- Modelled from the spec: `get_builtin_function` of
`sntk_ir/src/builtin.rs` — the fixed host registry, at minimum `print`
(whose I/O is not modelled; it returns `Boolean(false)` as the unit
stand-in). -/
def get_builtin_function (name : Identifier) :
    Option (List LiteralValue → LiteralValue) :=
  if name = "print" then some (fun _ => .Boolean false) else none

/-- Lines 165–168 of `interpreter.rs`: evaluate the call arguments left to
right, first error wins (`collect::<Result<Vec<_>, _>>`).  `eval_e` is the
recursive `eval_expression` of the enclosing interpreter. -/
def eval_expression_list (eval_e : IrExpression → RRes LiteralValue) :
    List IrExpression → RRes (List LiteralValue)
  | [] => .ok []
  | e :: rest =>
    (eval_e e).bind fun v =>
    (eval_expression_list eval_e rest).bind fun vs => .ok (v :: vs)

/-- `IrInterpreter::eval` (lines 80–86 of `interpreter.rs`): run the
instructions in order, threading the environment. -/
def ir_eval (eval_i : IrEnvironment → Instruction → RRes IrEnvironment) :
    IrEnvironment → List Instruction → RRes IrEnvironment
  | env, [] => .ok env
  | env, i :: rest => (eval_i env i).bind fun env' => ir_eval eval_i env' rest

/-- `IrInterpreter::last` (lines 88–100 of `interpreter.rs`): the block's
value is the evaluated expression of the last instruction when that
instruction is a `Return`, and `Boolean(false)` in every other case,
including the empty instruction list. -/
def last_value (eval_e : IrEnvironment → IrExpression → Core.Position → RRes LiteralValue)
    (env : IrEnvironment) : List Instruction → RRes LiteralValue
  | [] => .ok (.Boolean false)
  | [i] =>
    match i with
    | .mk (.Return e) p => eval_e env e ⟨p.1, p.2⟩
    | _ => .ok (.Boolean false)
  | _ :: rest => last_value eval_e env rest

/-- Lines 195–197 of `interpreter.rs`: bind each parameter name to the
matching argument, pairwise by position (`parameters.iter().zip(
arguments.iter())`); unmatched names or values are simply dropped by the
zip. -/
def bind_parameters (env : IrEnvironment) :
    List Identifier → List LiteralValue → IrEnvironment
  | p :: ps, a :: rest => bind_parameters (env.set p a) ps rest
  | _, _ => env

mutual
/-- `IrInterpreter::eval_instruction` of `interpreter.rs` (lines 104–125).
The `Return` arm is a no-op (its expression is recovered only through the
`last` protocol); `None` is a no-op. -/
def eval_instruction : Nat → IrEnvironment → Instruction → RRes IrEnvironment
  | 0, _, _ => .error .outOfFuel
  | fuel + 1, environment, .mk instruction p =>
    let position : Core.Position := ⟨p.1, p.2⟩
    match instruction with
    | .StoreName name expression =>
      (eval_expression fuel environment expression position).bind fun value =>
        .ok (environment.set name value)
    | .Expression expression =>
      (eval_expression fuel environment expression position).bind fun _ => .ok environment
    | .Return _ => .ok environment
    | .None => .ok environment

/-- `IrInterpreter::eval_expression` of `interpreter.rs` (lines 127–277).
The call tail shared by the identifier and computed-callee paths is
`call_function_value`. -/
def eval_expression : Nat → IrEnvironment → IrExpression → Core.Position → RRes LiteralValue
  | 0, _, _, _ => .error .outOfFuel
  | fuel + 1, environment, expression, position =>
    match expression with
    | .Identifier name =>
      match environment.get name with
      | some value => .ok value
      | none => .error (.err ⟨.UndefinedVariable name, position⟩)
    | .Literal value =>
      match value with
      | .Array array =>
        (eval_expression_list (fun e => eval_expression fuel environment e position)
            array).bind fun values =>
          .ok (.Array (values.map (fun v => .Literal v)))
      | _ => .ok value
    | .Block block =>
      (ir_eval (fun env i => eval_instruction fuel env i)
          (IrEnvironment.new (some environment)) block).bind fun env' =>
      last_value (fun env e p => eval_expression fuel env e p) env' block
    | .If condition consequence alternative =>
      (eval_expression fuel environment condition position).bind fun c =>
      match c with
      | .Boolean true => eval_expression fuel environment consequence position
      | .Boolean false =>
        match alternative with
        | some alt => eval_expression fuel environment alt position
        | none => .ok (.Boolean false)
      | _ => .error .panicked
    | .Call function arguments =>
      (eval_expression_list (fun e => eval_expression fuel environment e position)
          arguments).bind fun argument_values =>
      match function with
      | .Identifier name =>
        match environment.get name with
        | some value => call_function_value fuel environment value argument_values position
        | none =>
          match get_builtin_function name with
          | some f => .ok (f argument_values)
          | none => .error (.err ⟨.UndefinedVariable name, position⟩)
      | _ =>
        (eval_expression fuel environment function position).bind fun value =>
        call_function_value fuel environment value argument_values position
    | .Index left index =>
      (eval_expression fuel environment left position).bind fun l =>
      (eval_expression fuel environment index position).bind fun i =>
      match l, i with
      | .Array array, .Number index_n =>
        let index_u := index_n.toNat
        match array.get? index_u with
        | some value => eval_expression fuel environment value position
        | none => .error (.err ⟨.IndexOutOfBounds index_u, position⟩)
      | l, _ => .error (.err ⟨.NotAnArray l.to_string, position⟩)
    | .Prefix operator right =>
      (eval_expression fuel environment right position).bind fun r =>
      match operator, r with
      | .Minus, .Number n => .ok (.Number (-n))
      | .Bang, .Boolean b => .ok (.Boolean (!b))
      | op, _ => .error (.err ⟨.InvalidOperator (Core.token_to_string op), position⟩)
    | .Infix left operator right =>
      (eval_expression fuel environment left position).bind fun l =>
      (eval_expression fuel environment right position).bind fun r =>
      match l, r with
      | .Number a, .Number b =>
        match operator with
        | .Plus => .ok (.Number (a + b))
        | .Minus => .ok (.Number (a - b))
        | .Asterisk => .ok (.Number (a * b))
        | .Slash => .ok (.Number (a / b))
        | .EQ => .ok (.Boolean (a = b))
        | .NEQ => .ok (.Boolean (a ≠ b))
        | .LT => .ok (.Boolean (a < b))
        | .LTE => .ok (.Boolean (a ≤ b))
        | .GT => .ok (.Boolean (b < a))
        | .GTE => .ok (.Boolean (b ≤ a))
        | op => .error (.err ⟨.InvalidOperator (Core.token_to_string op), position⟩)
      | .String a, .String b =>
        match operator with
        | .Plus => .ok (.String (a ++ b))
        | .EQ => .ok (.Boolean (a = b))
        | .NEQ => .ok (.Boolean (a ≠ b))
        | .LT => .ok (.Boolean (a < b))
        | .LTE => .ok (.Boolean (a ≤ b))
        | .GT => .ok (.Boolean (b < a))
        | .GTE => .ok (.Boolean (b ≤ a))
        | op => .error (.err ⟨.InvalidOperator (Core.token_to_string op), position⟩)
      | .Boolean a, .Boolean b =>
        match operator with
        | .EQ => .ok (.Boolean (a = b))
        | .NEQ => .ok (.Boolean (a ≠ b))
        | op => .error (.err ⟨.InvalidOperator (Core.token_to_string op), position⟩)
      | l, r =>
        .error (.err
          ⟨.InvalidOperands l.to_string r.to_string (Core.token_to_string operator), position⟩)

/-- Lines 183–213 of `interpreter.rs`: call a function value.  The callee
must be a `Function` literal value; its captured environment is reused if
present, otherwise a fresh child of the call-site environment is created;
parameters are bound pairwise to the argument values; the body runs under
`eval` and the result is taken by `last`; a function result is re-wrapped
with a child of its (or the call's) environment. -/
def call_function_value : Nat → IrEnvironment → LiteralValue → List LiteralValue →
    Core.Position → RRes LiteralValue
  | 0, _, _, _, _ => .error .outOfFuel
  | fuel + 1, environment, function, arguments, position =>
    match function with
    | .Function parameters block _ env_opt =>
      let env0 := match env_opt with
        | some e => e
        | none => IrEnvironment.new (some environment)
      let env_bound := bind_parameters env0 (parameters.map (fun p => p.name)) arguments
      (ir_eval (fun env i => eval_instruction fuel env i) env_bound block).bind fun env' =>
      (last_value (fun env e p => eval_expression fuel env e p) env' block).bind fun result =>
      match result with
      | .Function ps body rt r_env =>
        .ok (.Function ps body rt (some (IrEnvironment.new (some (match r_env with
              | some e => e
              | none => env_bound)))))
      | value => .ok value
    | value => .error (.err ⟨.NotAFunction value.to_string, position⟩)
end

end Ir

namespace Core

/-- The NUL character the lexer uses as its end-of-input sentinel
(`'\0'`). -/
def nulChar : Char := Char.ofNat 0

/-- `Lexer` of `sntk_core/src/tokenizer/lexer.rs`.  The input string is
modelled as its character sequence (the source indexes with
`chars().nth`, so positions are character indices; the slice positions
coincide for the ASCII programs considered here). -/
structure Lexer where
  input : List Char
  position : Nat
  read_position : Nat
  current_char : Char
  current_position : Nat × Nat
  deriving Repr

/-- `Lexer::default()`. -/
def Lexer.default : Lexer :=
  { input := [], position := 0, read_position := 0, current_char := nulChar,
    current_position := (1, 0) }

/-- `Lexer::read_char`: load the character at `read_position` (or `'\0'`
past the end), advance both indices, and increment the column. -/
def Lexer.read_char (l : Lexer) : Lexer :=
  let c := if l.read_position ≥ l.input.length then nulChar
           else (l.input.get? l.read_position).getD nulChar
  { l with current_char := c, position := l.read_position,
           read_position := l.read_position + 1,
           current_position := (l.current_position.1, l.current_position.2 + 1) }

/-- `Lexer::new(input)`: defaults, then one `read_char`. -/
def Lexer.new (input : List Char) : Lexer :=
  Lexer.read_char { Lexer.default with input := input }

/-- `Lexer::peek_char`. -/
def Lexer.peek_char (l : Lexer) : Char :=
  if l.read_position ≥ l.input.length then nulChar
  else (l.input.get? l.read_position).getD nulChar

/-- `Lexer::skip_whitespace`: on a newline, bump the line and reset the
column to 0 before reading on.  The Rust loop is bounded by the input
length (each `read_char` advances `read_position` and the sentinel is not
whitespace); the explicit fuel below is always called with
`input.length + 1`, which that bound makes sufficient. -/
def Lexer.skip_whitespace : Nat → Lexer → Lexer
  | 0, l => l
  | fuel + 1, l =>
    if l.current_char.isWhitespace then
      let l := if l.current_char = '\n' then
                 { l with current_position := (l.current_position.1 + 1, 0) }
               else l
      Lexer.skip_whitespace fuel l.read_char
    else l

/-- Character-slice `input[start..stop]` (by character index). -/
def Lexer.slice (input : List Char) (start stop : Nat) : List Char :=
  (input.drop start).take (stop - start)

/-- The identifier-character loop of `Lexer::read_identifier`
(`is_alphanumeric() || == '_'`; ASCII model). -/
def Lexer.read_while_ident : Nat → Lexer → Lexer
  | 0, l => l
  | fuel + 1, l =>
    if l.current_char.isAlphanum ∨ l.current_char = '_' then
      Lexer.read_while_ident fuel l.read_char
    else l

/-- Leading-pattern test for the replacement loop. -/
def starts_with : List Char → List Char → Bool
  | _, [] => true
  | [], _ :: _ => false
  | c :: cs, p :: ps => c = p && starts_with cs ps

/-- Find-and-replace-all over character lists (the observable behaviour
of `str::replace`, used by the `replace_all!` macro in
`read_identifier`). -/
def replace_all : Nat → List Char → List Char → List Char → List Char
  | 0, s, _, _ => s
  | _, [], _, _ => []
  | fuel + 1, s@(c :: cs), pat, rep =>
    if pat ≠ [] ∧ starts_with s pat then
      rep ++ replace_all fuel (s.drop pat.length) pat rep
    else c :: replace_all fuel cs pat rep

/-- `Lexer::read_identifier`: read the identifier characters, slice them
out, and run the escape `replace_all!` chain (a no-op on identifier
characters, embedded nonetheless). -/
def Lexer.read_identifier (l : Lexer) : List Char × Lexer :=
  let start := l.position
  let l' := Lexer.read_while_ident (l.input.length + 1) l
  let result := Lexer.slice l'.input start l'.position
  let n := result.length + 1
  let result := replace_all n result ['\\', 'r'] ['\r']
  let result := replace_all n result ['\\', 't'] ['\t']
  let result := replace_all n result ['\\', 'n'] ['\n']
  let result := replace_all n result ['\\', '"'] ['"']
  let result := replace_all n result ['\\', '\\'] ['\\']
  (result, l')

/-- The digit/dot loop of `Lexer::read_number` (at most one dot; a second
dot breaks the loop). -/
def Lexer.read_while_number : Nat → Lexer → Bool → Lexer
  | 0, l, _ => l
  | fuel + 1, l, has_dot =>
    if l.current_char.isDigit ∨ l.current_char = '.' then
      if l.current_char = '.' then
        if has_dot then l
        else Lexer.read_while_number fuel l.read_char true
      else Lexer.read_while_number fuel l.read_char has_dot
    else l

/-- Digits to a natural number. -/
def digits_to_nat : List Char → Nat → Nat
  | [], acc => acc
  | c :: cs, acc => digits_to_nat cs (acc * 10 + (c.toNat - '0'.toNat))

/-- The observable behaviour of `str::parse::<f64>` on the slices
`read_number` produces (digits with at most one dot), as an exact
rational; the claims only exercise integral values. -/
def parse_number_chars (s : List Char) : Rat :=
  let int_part := s.takeWhile (fun c => c ≠ '.')
  let frac_part := (s.dropWhile (fun c => c ≠ '.')).drop 1
  (digits_to_nat int_part 0 : Rat) +
    (digits_to_nat frac_part 0 : Rat) / ((10 : Rat) ^ frac_part.length)

/-- `Lexer::read_number`: read the number characters and parse the slice
(`parse().unwrap_or(0.)` — the produced slices always parse). -/
def Lexer.read_number (l : Lexer) : Rat × Lexer :=
  let start := l.position
  let l' := Lexer.read_while_number (l.input.length + 1) l false
  (parse_number_chars (Lexer.slice l'.input start l'.position), l')

/-- The scan loop of `Lexer::read_string` (`peek_char() != '"' &&
current_char != '\0'`). -/
def Lexer.read_while_string : Nat → Lexer → Lexer
  | 0, l => l
  | fuel + 1, l =>
    if l.peek_char ≠ '"' ∧ l.current_char ≠ nulChar then
      Lexer.read_while_string fuel l.read_char
    else l

/-- `Lexer::read_string`: slice from just past the opening quote to the
position reached after the scan loop plus the closing `read_char`. -/
def Lexer.read_string (l : Lexer) : List Char × Lexer :=
  let start := l.position + 1
  let l' := (Lexer.read_while_string (l.input.length + 1) l).read_char
  (Lexer.slice l'.input start l'.position, l')

/-- `Lexer::next_token` of `lexer.rs`.  Phase one is the `match_token!`
macro over `current_char` (two-character lookahead exists only for `==`
and `!=` in this source); phase two dispatches alphabetic input to
`read_identifier`/keyword mapping and numeric input to `read_number`, and
otherwise advances one character and returns the phase-one token. -/
def Lexer.next_token (l : Lexer) : Token × Lexer :=
  let l := Lexer.skip_whitespace (l.input.length + 1) l
  let (token, l1) : Token × Lexer :=
    match l.current_char with
    | '+' => (⟨.Plus, l.current_position⟩, l)
    | '-' => (⟨.Minus, l.current_position⟩, l)
    | '*' => (⟨.Asterisk, l.current_position⟩, l)
    | '/' => (⟨.Slash, l.current_position⟩, l)
    | '<' => (⟨.LT, l.current_position⟩, l)
    | '>' => (⟨.GT, l.current_position⟩, l)
    | ',' => (⟨.Comma, l.current_position⟩, l)
    | ';' => (⟨.Semicolon, l.current_position⟩, l)
    | ':' => (⟨.Colon, l.current_position⟩, l)
    | '(' => (⟨.LParen, l.current_position⟩, l)
    | ')' => (⟨.RParen, l.current_position⟩, l)
    | '{' => (⟨.LBrace, l.current_position⟩, l)
    | '}' => (⟨.RBrace, l.current_position⟩, l)
    | '[' => (⟨.LBracket, l.current_position⟩, l)
    | ']' => (⟨.RBracket, l.current_position⟩, l)
    | '"' =>
      let (s, l') := Lexer.read_string l
      (⟨.String (String.mk s), l'.current_position⟩, l')
    | '=' =>
      if l.peek_char = '=' then
        let l' := l.read_char
        (⟨.EQ, l'.current_position⟩, l')
      else (⟨.Assign, l.current_position⟩, l)
    | '!' =>
      if l.peek_char = '=' then
        let l' := l.read_char
        (⟨.NEQ, l'.current_position⟩, l')
      else (⟨.Bang, l.current_position⟩, l)
    | c => if c = nulChar then (⟨.EOF, l.current_position⟩, l)
           else (⟨.ILLEGAL c.toString, l.current_position⟩, l)
  if l1.current_char.isAlpha then
    let (s, l2) := Lexer.read_identifier l1
    (⟨tokens_from (String.mk s), l2.current_position⟩, l2)
  else if l1.current_char.isDigit then
    let (n, l2) := Lexer.read_number l1
    (⟨.Number n, l2.current_position⟩, l2)
  else
    (token, l1.read_char)

/-- Token-stream observation used by the lexer theorems: collect the token
kinds `next_token` produces until `EOF`. -/
def lex_tokens : Nat → Lexer → List Tokens
  | 0, _ => []
  | fuel + 1, l =>
    let (t, l') := Lexer.next_token l
    match t.token_type with
    | .EOF => []
    | tt => tt :: lex_tokens fuel l'

/-- The kinds of the tokens the lexer produces for a source string. -/
def tokens_of (s : String) : List Tokens := lex_tokens (s.data.length + 2) (Lexer.new s.data)

/-- `ParsingError` of `sntk_core/src/parser/error.rs`: a message and a
position (fields as destructured by `sntk_compiler/src/lib.rs`). -/
structure ParsingError where
  message : String
  position : Position
  deriving DecidableEq, Repr

/-- Modelled from the spec: the parser's error-message templates
(`EXPECTED_NEXT_TOKEN`, `UNEXPECTED_TOKEN`, `EXPECTED_EXPRESSION`),
rendered with the argument tokens. -/
def EXPECTED_NEXT_TOKEN (expected got : String) : String :=
  "expected next token to be " ++ expected ++ ", got " ++ got ++ " instead"

/-- Modelled from the spec: unexpected-token message. -/
def UNEXPECTED_TOKEN (got : String) : String := "unexpected token " ++ got

/-- Modelled from the spec: expected-expression message. -/
def EXPECTED_EXPRESSION (got : String) : String := "expected expression, got " ++ got

/-- Modelled from the spec: `Identifier` AST node (`value`, `position`). -/
structure Identifier where
  value : String
  position : Position
  deriving DecidableEq, Repr

/-- Modelled from the spec: `DataType` of the parser's type grammar
(`ast.rs`): primitives, `Fn(FunctionType)` (inlined fields), `Object`,
`Custom`, `Generic` and `Array` layers, as the `TypeParser` impl builds
them. -/
inductive DataType where
  | Number
  | String
  | Boolean
  | Fn (generics : Option (List Identifier)) (parameters : List DataType) (ret : DataType)
  | Object (key : DataType) (value : DataType)
  | Custom (name : String)
  | Generic (base : DataType) (args : List DataType)
  | Array (t : DataType)

mutual
/-- Modelled from the spec: `Expression` of `ast.rs`, with exactly the
variants `parser.rs` and `compiler.rs` pattern-match on.  The nested
`BlockExpression`/`IfExpression` structures are inlined as statement lists
with their positions; `IndexExpression` and `StructLiteral` are reserved
variants this parser never produces. -/
inductive Expression where
  | Identifier (id : Identifier)
  | NumberLiteral (value : Rat) (position : Position)
  | StringLiteral (value : String) (position : Position)
  | BooleanLiteral (value : Bool) (position : Position)
  | ArrayLiteral (elements : List Expression) (position : Position)
  | ObjectLiteral (elements : List (Expression × Expression)) (position : Position)
  | FunctionLiteral (generics : Option (List Identifier))
      (parameters : List (Identifier × DataType)) (return_type : DataType)
      (body : List Statement) (body_position : Position) (position : Position)
  | BlockExpression (statements : List Statement) (position : Position)
  | PrefixExpression (operator : Tokens) (right : Expression) (position : Position)
  | InfixExpression (left : Expression) (operator : Tokens) (right : Expression)
      (position : Position)
  | CallExpression (function : Expression) (arguments : List Expression) (position : Position)
  | IndexExpression (left : Expression) (index : Expression) (position : Position)
  | IfExpression (condition : Expression) (consequence : List Statement)
      (consequence_position : Position) (alternative : Option (List Statement × Position))
      (position : Position)
  | StructLiteral (name : Identifier) (position : Position)

/-- Modelled from the spec: `Statement` of `ast.rs`; `StructStatement` is
the reserved variant `compile_program` refuses with `unimplemented!()`. -/
inductive Statement where
  | LetStatement (data_type : DataType) (name : Identifier) (value : Expression)
      (position : Position)
  | ReturnStatement (value : Expression) (position : Position)
  | TypeStatement (data_type : DataType) (name : Identifier) (generics : List Identifier)
      (position : Position)
  | ExpressionStatement (expression : Expression) (position : Position)
  | StructStatement (name : Identifier) (position : Position)
end

/-- `Program` of `ast.rs`: the statement list and the accumulated parser
errors. -/
structure Program where
  statements : List Statement
  errors : List ParsingError

/-- `Program::default()`. -/
def Program.default : Program := ⟨[], []⟩

/-- `Program::new(statements)` (used by `compile_block`). -/
def Program.new (statements : List Statement) : Program := ⟨statements, []⟩

/-- The operator-precedence levels of `parser.rs` (`Priority`), ordered by
declaration as in the Rust `PartialOrd` derive. -/
inductive Priority where
  | Lowest | Equals | LessGreater | Sum | Product | Prefix | Call | Index
  deriving DecidableEq, Repr

/-- Rank used to compare priorities (`PartialOrd` by declaration order). -/
def Priority.toNat : Priority → Nat
  | .Lowest => 0 | .Equals => 1 | .LessGreater => 2 | .Sum => 3
  | .Product => 4 | .Prefix => 5 | .Call => 6 | .Index => 7

/-- `Parser` of `sntk_core/src/parser/parser.rs`: the lexer, the two
lookahead tokens, the position of the current token and the accumulated
errors. -/
structure Parser where
  lexer : Lexer
  current_token : Token
  peek_token : Token
  position : Position
  errors : List ParsingError

/-- `Parser::default()`. -/
def Parser.default : Parser :=
  { lexer := Lexer.default, current_token := Token.default, peek_token := Token.default,
    position := ⟨0, 0⟩, errors := [] }

/-- `Parser::next_token`: shift peek into current, pull the next lexer
token, and set `position` from the (new) current token. -/
def Parser.next_token (p : Parser) : Parser :=
  let (tok, lexer) := Lexer.next_token p.lexer
  { p with lexer := lexer, current_token := p.peek_token, peek_token := tok,
           position := ⟨p.peek_token.position.1, p.peek_token.position.2⟩ }

/-- `Parser::new(lexer)`: two `next_token` calls prime the lookahead. -/
def Parser.new (lexer : Lexer) : Parser :=
  (Parser.next_token (Parser.next_token { Parser.default with lexer := lexer }))

/-- `Parser::from(input)` (via `Lexer::new`). -/
def Parser.from_input (s : String) : Parser := Parser.new (Lexer.new s.data)

/-- `Parser::peek_token(&self, token_type)` — the method, renamed since the
field of the same name also exists. -/
def Parser.peek_token_is (p : Parser) (token_type : Tokens) : Bool :=
  p.peek_token.token_type == token_type

/-- `Parser::get_priority`.  Note this variant assigns no priority to
`Percent`, `LTE` or `GTE` (they fall to `Lowest`). -/
def Parser.get_priority (token_type : Tokens) : Priority :=
  match token_type with
  | .Assign => .Equals
  | .Plus | .Minus => .Sum
  | .Slash | .Asterisk => .Product
  | .LT | .GT => .LessGreater
  | .EQ | .NEQ => .Equals
  | .LParen => .Call
  | .LBracket => .Index
  | _ => .Lowest

/-- `Parser::peek_priority`. -/
def Parser.peek_priority (p : Parser) : Priority := Parser.get_priority p.peek_token.token_type

/-- `Parser::current_priority`. -/
def Parser.current_priority (p : Parser) : Priority :=
  Parser.get_priority p.current_token.token_type

/-- Failure channel of the embedded parser: a `ParsingError` together with
the parser state at the moment the `Err` return reaches the caller (Rust
mutates `self` in place, so the state travels alongside), a panic
(`unimplemented!()` on `if`), or fuel exhaustion (the source recursion is
unbounded, and in fact diverges on prefix expressions). -/
inductive PFail where
  | err (e : ParsingError) (state : Parser)
  | panicked
  | outOfFuel

/-- `ParseResult<T>` of `parser.rs`, with the state threaded through. -/
abbrev PRes (α : Type) := Except PFail (α × Parser)

/-- Build a `ParsingError` at the parser's current position (the
`parsing_error!` macro, modelled from the spec). -/
def parsing_error (p : Parser) (message : String) : ParsingError := ⟨message, p.position⟩

/-- Modelled from the spec: the `ident!` macro — yield the text of the
current token when it is an identifier, otherwise fail with an
unexpected-token error. -/
def ident_of (p : Parser) : PRes String :=
  match p.current_token.token_type with
  | .IDENT s => .ok (s, p)
  | tt => .error (.err (parsing_error p (UNEXPECTED_TOKEN (token_to_string tt))) p)

/-- `Parser::expect_token`: advance past the expected current token or fail
without advancing. -/
def expect_token (p : Parser) (token_type : Tokens) : PRes Unit :=
  if p.current_token.token_type = token_type then .ok ((), p.next_token)
  else
    .error (.err
      (parsing_error p (EXPECTED_NEXT_TOKEN (token_to_string token_type)
        (token_to_string p.current_token.token_type))) p)

mutual
/-- `Parser::parse_statement`: dispatch on the current token
(`Let`/`Return`/`Type`, else an expression statement). -/
def parse_statement : Nat → Parser → PRes Statement
  | 0, _ => .error .outOfFuel
  | fuel + 1, p =>
    match p.current_token.token_type with
    | .Let => parse_let_statement fuel p
    | .Return => parse_return_statement fuel p
    | .Type => parse_type_statement fuel p
    | _ => parse_expression_statement fuel p

/-- `Parser::parse_let_statement` (`let ident: type = expr;`).  An error
from the value expression is discarded and replaced by the final
`UNEXPECTED_TOKEN` error (the `if let Ok(..)` in the source). -/
def parse_let_statement : Nat → Parser → PRes Statement
  | 0, _ => .error .outOfFuel
  | fuel + 1, p =>
    let p := p.next_token
    (ident_of p).bind fun (name, p) =>
    let ident : Identifier := ⟨name, p.position⟩
    let p := p.next_token
    (expect_token p .Colon).bind fun (_, p) =>
    (parse_data_type fuel p).bind fun (data_type, p) =>
    (expect_token p .Assign).bind fun (_, p) =>
    match parse_expression fuel p .Lowest with
    | .ok (expression, p) =>
      if p.peek_token_is .Semicolon then
        let p := p.next_token
        .ok (.LetStatement data_type ident expression p.position, p)
      else
        .error (.err (parsing_error p (EXPECTED_NEXT_TOKEN (token_to_string .Semicolon)
          (token_to_string p.current_token.token_type))) p)
    | .error (.err _ pe) =>
      .error (.err (parsing_error pe
        (UNEXPECTED_TOKEN (token_to_string pe.current_token.token_type))) pe)
    | .error f => .error f

/-- `Parser::parse_return_statement` (`return expr;`); a failing value
expression is replaced by `EXPECTED_EXPRESSION`. -/
def parse_return_statement : Nat → Parser → PRes Statement
  | 0, _ => .error .outOfFuel
  | fuel + 1, p =>
    let p := p.next_token
    match parse_expression fuel p .Lowest with
    | .ok (expression, p) =>
      if p.peek_token_is .Semicolon then
        let p := p.next_token
        .ok (.ReturnStatement expression p.position, p)
      else
        .error (.err (parsing_error p (EXPECTED_NEXT_TOKEN (token_to_string .Semicolon)
          (token_to_string p.current_token.token_type))) p)
    | .error (.err _ pe) =>
      .error (.err (parsing_error pe
        (EXPECTED_EXPRESSION (token_to_string pe.current_token.token_type))) pe)
    | .error f => .error f

/-- `Parser::parse_type_statement` (`type <ident><generics?> = <type>;`). -/
def parse_type_statement : Nat → Parser → PRes Statement
  | 0, _ => .error .outOfFuel
  | fuel + 1, p =>
    let p := p.next_token
    (ident_of p).bind fun (name, p) =>
    let p := p.next_token
    ((if p.current_token.token_type = .LT then parse_generic_identifier fuel p
      else .ok ([], p) : PRes (List Identifier))).bind fun (generics, p) =>
    let p := p.next_token
    (expect_token p .Assign).bind fun (_, p) =>
    (parse_data_type fuel p).bind fun (data_type, p) =>
    if p.current_token.token_type = .Semicolon then
      .ok (.TypeStatement data_type ⟨name, p.position⟩ generics p.position, p)
    else
      .error (.err (parsing_error p (EXPECTED_NEXT_TOKEN (token_to_string .Semicolon)
        (token_to_string p.current_token.token_type))) p)

/-- `Parser::parse_expression_statement`. -/
def parse_expression_statement : Nat → Parser → PRes Statement
  | 0, _ => .error .outOfFuel
  | fuel + 1, p =>
    (parse_expression fuel p .Lowest).bind fun (expression, p) =>
    if p.peek_token_is .Semicolon then
      let p := p.next_token
      .ok (.ExpressionStatement expression p.position, p)
    else
      .error (.err (parsing_error p (EXPECTED_NEXT_TOKEN (token_to_string .Semicolon)
        (token_to_string p.current_token.token_type))) p)

/-- `Parser::parse_expression` (lines 301–424).  The prefix phase mirrors
the source arm by arm: `if` is `unimplemented!()` (a panic); the
`-`/`!` arm recurses *without* advancing past the operator, exactly as the
source does (which therefore never terminates on prefix expressions —
here the fuel runs out); a parenthesized expression stores its inner
`Result` unresolved, as the source keeps `Some(expression)`.  `None`
becomes the `UNEXPECTED_TOKEN` error of the `ok_or_else`. -/
def parse_expression : Nat → Parser → Priority → PRes Expression
  | 0, _, _ => .error .outOfFuel
  | fuel + 1, p, priority =>
    ((match p.current_token.token_type with
      | .IDENT ident => .ok (some (.ok (.Identifier ⟨ident, p.position⟩)), p)
      | .Number n => .ok (some (.ok (.NumberLiteral n p.position)), p)
      | .String s => .ok (some (.ok (.StringLiteral s p.position)), p)
      | .Boolean b => .ok (some (.ok (.BooleanLiteral b p.position)), p)
      | .Bang =>
        (parse_expression fuel p .Prefix).bind fun (right, p') =>
          .ok (some (.ok (.PrefixExpression .Bang right p'.position)), p')
      | .Minus =>
        (parse_expression fuel p .Prefix).bind fun (right, p') =>
          .ok (some (.ok (.PrefixExpression .Minus right p'.position)), p')
      | .LParen =>
        let p1 := p.next_token
        (match parse_expression fuel p1 .Lowest with
         | .ok (e, p2) =>
           let p3 := p2.next_token
           if p3.current_token.token_type ≠ .RParen then
             .error (.err (parsing_error p3 (EXPECTED_NEXT_TOKEN (token_to_string .RParen)
               (token_to_string p3.current_token.token_type))) p3)
           else .ok (some (.ok e), p3)
         | .error (.err e p2) =>
           let p3 := p2.next_token
           if p3.current_token.token_type ≠ .RParen then
             .error (.err (parsing_error p3 (EXPECTED_NEXT_TOKEN (token_to_string .RParen)
               (token_to_string p3.current_token.token_type))) p3)
           else .ok (some (.error e), p3)
         | .error f => .error f)
      | .LBrace =>
        (parse_block_expression fuel p).bind fun ((statements, bpos), p') =>
          .ok (some (.ok (.BlockExpression statements bpos)), p')
      | .LBracket =>
        (parse_array_literal fuel p).bind fun ((elements, apos), p') =>
          .ok (some (.ok (.ArrayLiteral elements apos)), p')
      | .ObjectType =>
        (parse_object_literal fuel p).bind fun ((elements, opos), p') =>
          .ok (some (.ok (.ObjectLiteral elements opos)), p')
      | .Function =>
        (parse_function_literal fuel p).bind fun (f, p') => .ok (some (.ok f), p')
      | .If => .error .panicked
      | _ => .ok (none, p)
      : Except PFail (Option (Except ParsingError Expression) × Parser))).bind
      fun (left_expression, p) =>
    match left_expression with
    | none =>
      .error (.err (parsing_error p
        (UNEXPECTED_TOKEN (token_to_string p.current_token.token_type))) p)
    | some left_expression => parse_expression_fold fuel p left_expression priority

/-- The infix/call fold loop of `parse_expression` (lines 364–421).  The
running `left_expression` is a stored `Result`, unwrapped (`?`) only where
the source unwraps it; an unknown infix token *assigns* the error and
re-enters the loop, as the source does. -/
def parse_expression_fold : Nat → Parser → Except ParsingError Expression → Priority →
    PRes Expression
  | 0, _, _, _ => .error .outOfFuel
  | fuel + 1, p, left_expression, priority =>
    if ¬ (p.peek_token_is .Semicolon) ∧ priority.toNat < p.peek_priority.toNat then
      let p1 := p.next_token
      match p1.current_token.token_type with
      | .Plus | .Minus | .Slash | .Asterisk | .Percent
      | .EQ | .NEQ | .LT | .GT | .LTE | .GTE =>
        (match left_expression with
         | .error e => .error (.err e p1)
         | .ok left_e =>
           let operator := p1.current_token.token_type
           let p2 := p1.next_token
           (parse_expression fuel p2 p2.current_priority).bind fun (right, p3) =>
             parse_expression_fold fuel p3
               (.ok (.InfixExpression left_e operator right p3.position)) priority)
      | .LParen =>
        let p2 := p1.next_token
        (parse_call_arguments fuel p2).bind fun (arguments, p3) =>
        match left_expression with
        | .error e => .error (.err e p3)
        | .ok left_e =>
          parse_expression_fold fuel p3
            (.ok (.CallExpression left_e arguments p3.position)) priority
      | tt =>
        parse_expression_fold fuel p1
          (.error (parsing_error p1 (UNEXPECTED_TOKEN (token_to_string tt)))) priority
    else
      match left_expression with
      | .ok e => .ok (e, p)
      | .error e => .error (.err e p)

/-- The call-argument parsing of the `LParen` fold arm (lines 387–411),
including the source's double parse of the first argument (the unguarded
`push` before the loop). -/
def parse_call_arguments : Nat → Parser → PRes (List Expression)
  | 0, _ => .error .outOfFuel
  | fuel + 1, p =>
    if p.current_token.token_type ≠ .RParen then
      (parse_expression fuel p .Lowest).bind fun (first, p1) =>
      (parse_call_arguments_loop fuel p1 [first]).bind fun (arguments, p2) =>
      if p2.current_token.token_type ≠ .RParen then
        .error (.err (parsing_error p2 (EXPECTED_NEXT_TOKEN (token_to_string .RParen)
          (token_to_string p2.current_token.token_type))) p2)
      else .ok (arguments, p2)
    else .ok ([], p)

/-- The `while current != RParen` argument loop (lines 395–404). -/
def parse_call_arguments_loop : Nat → Parser → List Expression → PRes (List Expression)
  | 0, _, _ => .error .outOfFuel
  | fuel + 1, p, arguments =>
    if p.current_token.token_type ≠ .RParen then
      (parse_expression fuel p .Lowest).bind fun (e, p1) =>
      let p2 := p1.next_token
      if p2.current_token.token_type = .RParen then .ok (arguments ++ [e], p2)
      else
        (expect_token p2 .Comma).bind fun (_, p3) =>
        parse_call_arguments_loop fuel p3 (arguments ++ [e])
    else .ok (arguments, p)

/-- `Parser::parse_block_expression` (returns the statements with the
block's position). -/
def parse_block_expression : Nat → Parser → PRes (List Statement × Position)
  | 0, _ => .error .outOfFuel
  | fuel + 1, p =>
    let p := p.next_token
    (parse_block_loop fuel p []).bind fun (statements, p) =>
    .ok ((statements, p.position), p)

/-- The `while current != RBrace` statement loop of
`parse_block_expression`. -/
def parse_block_loop : Nat → Parser → List Statement → PRes (List Statement)
  | 0, _, _ => .error .outOfFuel
  | fuel + 1, p, acc =>
    if p.current_token.token_type ≠ .RBrace then
      (parse_statement fuel p).bind fun (s, p) =>
      parse_block_loop fuel p.next_token (acc ++ [s])
    else .ok (acc, p)

/-- `Parser::parse_array_literal`.  The loop guard compares against
`RBrace` (as the source does, RBracket only in the break), embedded
faithfully. -/
def parse_array_literal : Nat → Parser → PRes (List Expression × Position)
  | 0, _ => .error .outOfFuel
  | fuel + 1, p =>
    let p := p.next_token
    (parse_array_loop fuel p []).bind fun (elements, p) =>
    if p.current_token.token_type ≠ .RBracket then
      .error (.err (parsing_error p (EXPECTED_NEXT_TOKEN (token_to_string .RBracket)
        (token_to_string p.current_token.token_type))) p)
    else .ok ((elements, p.position), p)

/-- The element loop of `parse_array_literal` (lines 446–455). -/
def parse_array_loop : Nat → Parser → List Expression → PRes (List Expression)
  | 0, _, _ => .error .outOfFuel
  | fuel + 1, p, elements =>
    if p.current_token.token_type ≠ .RBrace then
      (parse_expression fuel p .Lowest).bind fun (e, p) =>
      let p := p.next_token
      if p.current_token.token_type = .RBracket then .ok (elements ++ [e], p)
      else
        (expect_token p .Comma).bind fun (_, p) =>
        parse_array_loop fuel p (elements ++ [e])
    else .ok (elements, p)

/-- `Parser::parse_object_literal` (two leading `next_token`s, then
key/colon/value pairs until `RBrace`). -/
def parse_object_literal : Nat → Parser → PRes (List (Expression × Expression) × Position)
  | 0, _ => .error .outOfFuel
  | fuel + 1, p =>
    let p := p.next_token.next_token
    (parse_object_loop fuel p []).bind fun (elements, p) =>
    if p.current_token.token_type ≠ .RBrace then
      .error (.err (parsing_error p (EXPECTED_NEXT_TOKEN (token_to_string .RBrace)
        (token_to_string p.current_token.token_type))) p)
    else .ok ((elements, p.position), p)

/-- The pair loop of `parse_object_literal` (lines 473–489). -/
def parse_object_loop : Nat → Parser → List (Expression × Expression) →
    PRes (List (Expression × Expression))
  | 0, _, _ => .error .outOfFuel
  | fuel + 1, p, elements =>
    if p.current_token.token_type ≠ .RBrace then
      (parse_expression fuel p .Lowest).bind fun (key, p) =>
      let p := p.next_token
      (expect_token p .Colon).bind fun (_, p) =>
      (parse_expression fuel p .Lowest).bind fun (value, p) =>
      let p := p.next_token
      let elements := elements ++ [(key, value)]
      if p.current_token.token_type = .RBrace then .ok (elements, p)
      else
        (expect_token p .Comma).bind fun (_, p) =>
        parse_object_loop fuel p elements
    else .ok (elements, p)

/-- `Parser::parse_function_literal`
(`fn<Generic>(arg: Type, ..) -> Type { .. }`). -/
def parse_function_literal : Nat → Parser → PRes Expression
  | 0, _ => .error .outOfFuel
  | fuel + 1, p =>
    let p := p.next_token
    ((if p.current_token.token_type = .LT then
        (parse_generic_identifier fuel p).bind fun (g, p) => .ok (some g, p.next_token)
      else .ok (none, p) : PRes (Option (List Identifier)))).bind fun (generics, p) =>
    (expect_token p .LParen).bind fun (_, p) =>
    (parse_function_parameters fuel p []).bind fun (parameters, p) =>
    (expect_token p .RParen).bind fun (_, p) =>
    (expect_token p .Arrow).bind fun (_, p) =>
    (parse_data_type fuel p).bind fun (return_type, p) =>
    if p.current_token.token_type ≠ .LBrace then
      .error (.err (parsing_error p (EXPECTED_NEXT_TOKEN (token_to_string .LBrace)
        (token_to_string p.current_token.token_type))) p)
    else
      (parse_block_expression fuel p).bind fun ((body, body_pos), p) =>
      .ok (.FunctionLiteral generics parameters return_type body body_pos p.position, p)

/-- The parameter loop of `parse_function_literal` (lines 519–541). -/
def parse_function_parameters : Nat → Parser → List (Identifier × DataType) →
    PRes (List (Identifier × DataType))
  | 0, _, _ => .error .outOfFuel
  | fuel + 1, p, parameters =>
    if p.current_token.token_type ≠ .RParen then
      match p.current_token.token_type with
      | .IDENT identifier =>
        let p := p.next_token
        (expect_token p .Colon).bind fun (_, p) =>
        (parse_data_type fuel p).bind fun (data_type, p) =>
        let parameters := parameters ++ [(⟨identifier, p.position⟩, data_type)]
        if p.current_token.token_type = .RParen then .ok (parameters, p)
        else
          (expect_token p .Comma).bind fun (_, p) =>
          parse_function_parameters fuel p parameters
      | tt => .error (.err (parsing_error p (UNEXPECTED_TOKEN (token_to_string tt))) p)
    else .ok (parameters, p)

/-- `Parser::parse_data_type`: `parse_data_type_without_next`, then one
unconditional `next_token` (also on the error path, since the source
advances before inspecting the stored result). -/
def parse_data_type : Nat → Parser → PRes DataType
  | 0, _ => .error .outOfFuel
  | fuel + 1, p =>
    match parse_data_type_without_next fuel p with
    | .ok (dt, p') => .ok (dt, p'.next_token)
    | .error (.err e p') => .error (.err e p'.next_token)
    | .error f => .error f

/-- `Parser::parse_data_type_without_next`: the primitive/`fn`/`object`/
identifier head (an unknown head *stores* an error, as the source assigns
`Err(..)`), the `<..>` generic overwrite, then the `[]` suffix layers. -/
def parse_data_type_without_next : Nat → Parser → PRes DataType
  | 0, _ => .error .outOfFuel
  | fuel + 1, p =>
    ((match p.current_token.token_type with
      | .NumberType => .ok (.ok DataType.Number, p)
      | .StringType => .ok (.ok DataType.String, p)
      | .BooleanType => .ok (.ok DataType.Boolean, p)
      | .Function => (parse_function_type fuel p).bind fun (ft, p) => .ok (.ok ft, p)
      | .ObjectType => (parse_object_type fuel p).bind fun (ot, p) => .ok (.ok ot, p)
      | .IDENT ident => .ok (.ok (DataType.Custom ident), p)
      | tt => .ok (.error (parsing_error p (UNEXPECTED_TOKEN (token_to_string tt))), p)
      : Except PFail (Except ParsingError DataType × Parser))).bind fun (data_type, p) =>
    ((if p.peek_token_is .LT then
        (parse_generic fuel p).bind fun (g, p) => .ok ((.ok g : Except ParsingError DataType), p)
      else .ok (data_type, p)
      : Except PFail (Except ParsingError DataType × Parser))).bind fun (data_type, p) =>
    parse_array_suffix fuel p data_type

/-- The `while peek == LBracket` suffix loop of
`parse_data_type_without_next`; the stored result is finally unwrapped
when the function returns. -/
def parse_array_suffix : Nat → Parser → Except ParsingError DataType → PRes DataType
  | 0, _, _ => .error .outOfFuel
  | fuel + 1, p, data_type =>
    if p.peek_token_is .LBracket then
      let p := p.next_token.next_token
      if p.current_token.token_type ≠ .RBracket then
        .error (.err (parsing_error p (EXPECTED_NEXT_TOKEN (token_to_string .RBracket)
          (token_to_string p.current_token.token_type))) p)
      else parse_array_suffix fuel p (data_type.map DataType.Array)
    else
      match data_type with
      | .ok dt => .ok (dt, p)
      | .error e => .error (.err e p)

/-- `Parser::parse_function_type` (`fn<G..>(T, ..) -> R`). -/
def parse_function_type : Nat → Parser → PRes DataType
  | 0, _ => .error .outOfFuel
  | fuel + 1, p =>
    let p := p.next_token
    ((if p.current_token.token_type = .LT then
        (parse_generic_identifier fuel p).bind fun (g, p) => .ok (some g, p.next_token)
      else .ok (none, p) : PRes (Option (List Identifier)))).bind fun (generics, p) =>
    (expect_token p .LParen).bind fun (_, p) =>
    (parse_function_type_parameters fuel p []).bind fun (parameters, p) =>
    (expect_token p .RParen).bind fun (_, p) =>
    (expect_token p .Arrow).bind fun (_, p) =>
    (parse_data_type_without_next fuel p).bind fun (return_type, p) =>
    .ok (.Fn generics parameters return_type, p)

/-- The parameter-type loop of `parse_function_type` (lines 636–644). -/
def parse_function_type_parameters : Nat → Parser → List DataType → PRes (List DataType)
  | 0, _, _ => .error .outOfFuel
  | fuel + 1, p, parameters =>
    if p.current_token.token_type ≠ .RParen then
      (parse_data_type fuel p).bind fun (dt, p) =>
      let parameters := parameters ++ [dt]
      if p.current_token.token_type = .RParen then .ok (parameters, p)
      else
        (expect_token p .Comma).bind fun (_, p) =>
        parse_function_type_parameters fuel p parameters
    else .ok (parameters, p)

/-- `Parser::parse_object_type` (`object K: V`). -/
def parse_object_type : Nat → Parser → PRes DataType
  | 0, _ => .error .outOfFuel
  | fuel + 1, p =>
    let p := p.next_token
    (parse_data_type fuel p).bind fun (key_type, p) =>
    (expect_token p .Colon).bind fun (_, p) =>
    (parse_data_type_without_next fuel p).bind fun (value_type, p) =>
    .ok (.Object key_type value_type, p)

/-- `Parser::parse_generic` (`T<U[], V>`). -/
def parse_generic : Nat → Parser → PRes DataType
  | 0, _ => .error .outOfFuel
  | fuel + 1, p =>
    (ident_of p).bind fun (ident, p) =>
    let p := p.next_token
    (expect_token p .LT).bind fun (_, p) =>
    (parse_generic_args fuel p []).bind fun (generics, p) =>
    .ok (.Generic (.Custom ident) generics, p)

/-- The argument loop of `parse_generic` (lines 678–688). -/
def parse_generic_args : Nat → Parser → List DataType → PRes (List DataType)
  | 0, _, _ => .error .outOfFuel
  | fuel + 1, p, generics =>
    if p.current_token.token_type ≠ .GT then
      (parse_data_type fuel p).bind fun (dt, p) =>
      let generics := generics ++ [dt]
      if p.current_token.token_type = .GT then .ok (generics, p)
      else
        (expect_token p .Comma).bind fun (_, p) =>
        parse_generic_args fuel p generics
    else .ok (generics, p)

/-- `Parser::parse_generic_identifier` (`<T, U>`). -/
def parse_generic_identifier : Nat → Parser → PRes (List Identifier)
  | 0, _ => .error .outOfFuel
  | fuel + 1, p =>
    (expect_token p .LT).bind fun (_, p) =>
    parse_generic_identifier_loop fuel p []

/-- The identifier loop of `parse_generic_identifier` (lines 701–713). -/
def parse_generic_identifier_loop : Nat → Parser → List Identifier → PRes (List Identifier)
  | 0, _, _ => .error .outOfFuel
  | fuel + 1, p, generics =>
    if p.current_token.token_type ≠ .GT then
      (ident_of p).bind fun (ident, p) =>
      let p := p.next_token
      let generics := generics ++ [⟨ident, p.position⟩]
      if p.current_token.token_type = .GT then .ok (generics, p)
      else
        (expect_token p .Comma).bind fun (_, p) =>
        parse_generic_identifier_loop fuel p generics
    else .ok (generics, p)
end

/-- Observable outcome of `parse_program`: a returned `Program`, a panic,
or non-termination (fuel exhaustion). -/
inductive ParseOutcome where
  | ok (program : Program)
  | panic
  | outOfFuel

/-- The statement loop of `Parser::parse_program` (lines 161–168): parse a
statement, push it or push its error into `self.errors`, advance, repeat
until `EOF`. -/
def parse_program_loop : Nat → Parser → List Statement → ParseOutcome
  | 0, _, _ => .outOfFuel
  | fuel + 1, p, statements =>
    if p.current_token.token_type = .EOF then
      let program : Program := { statements := statements, errors := p.errors }
      if p.errors.length > 0 then .ok { program with statements := [] }
      else .ok program
    else
      match parse_statement fuel p with
      | .ok (statement, p') => parse_program_loop fuel p'.next_token (statements ++ [statement])
      | .error (.err e p') =>
        parse_program_loop fuel ({ p' with errors := p'.errors ++ [e] }).next_token statements
      | .error .panicked => .panic
      | .error .outOfFuel => .outOfFuel

/-- `Parser::parse_program` (lines 158–177): run the loop, copy the
accumulated errors into the program, and clear the statements when any
error accumulated. -/
def parse_program (fuel : Nat) (p : Parser) : ParseOutcome :=
  parse_program_loop fuel p []

/-- Parse a source string: `Parser::from(input).parse_program()`, with a
fuel budget. -/
def parse_program_of (fuel : Nat) (input : String) : ParseOutcome :=
  parse_program fuel (Parser.from_input input)

end Core

namespace StackC

open Core

/-- Modelled from the spec: `BinaryOp` of `sntk_ir::code` as pushed by
`compiler.rs`. -/
inductive BinaryOp where
  | Add | Sub | Mul | Div | Mod
  deriving DecidableEq, Repr

/-- Modelled from the spec: `BinaryOpEq` of `sntk_ir::code`. -/
inductive BinaryOpEq where
  | Eq | Neq | Lt | Gt | Lte | Gte
  deriving DecidableEq, Repr

/-- Modelled from the spec: `UnaryOp` of `sntk_ir::code`. -/
inductive UnaryOp where
  | Minus | Not
  deriving DecidableEq, Repr

mutual
/-- Modelled from the spec: `Value` of `sntk_ir::value` as used by the
stack-compiler sources (`Value::LiteralValue(..)`). -/
inductive Value where
  | LiteralValue (v : LiteralValue)

/-- Modelled from the spec: `LiteralValue` of `sntk_ir::value` as
constructed by `helpers.rs` (`Function { parameters, body }`). -/
inductive LiteralValue where
  | Number (n : Rat)
  | Boolean (b : Bool)
  | String (s : String)
  | Array (values : List Value)
  | Function (parameters : List (String × DataType)) (body : Block)

/-- Modelled from the spec: `Instruction` of `sntk_ir::code` as pushed by
`compiler.rs`. -/
inductive Instruction where
  | LoadConst (v : Value)
  | LoadName (name : String)
  | StoreName (name : String)
  | LoadGlobal (name : String)
  | CallFunction (argc : Nat)
  | Return
  | Block (b : Block)
  | If (consequence : Block) (alternative : Option Block)
  | BinaryOp (op : BinaryOp)
  | BinaryOpEq (op : BinaryOpEq)
  | UnaryOp (op : UnaryOp)

/-- Modelled from the spec: `Block(pub Vec<Instruction>)` of
`sntk_ir::code`. -/
inductive Block where
  | mk (instructions : List Instruction)
end

def Block.instructions : Block → List Instruction
  | .mk i => i

/-- Modelled from the spec: the stack-IR `Interpreter` of `sntk_ir` that
`compile_program` returns (`Interpreter::new(instructions)`); only its
construction is needed here. -/
structure Interpreter where
  instructions : List Instruction

/-- `TypeError` of `sntk_compiler/src/lib.rs`: a formatted message and a
position. -/
structure TypeError where
  message : String
  position : Position
  deriving DecidableEq, Repr

/-- `CompileError` of `sntk_compiler/src/lib.rs`. -/
inductive CompileError where
  | ParsingError (errors : List ParsingError)
  | TypeError (e : TypeError)
  deriving DecidableEq, Repr

/-- Substitute one positional placeholder (the `{i}` of
`TypeError::new`); braces written as character escapes. -/
def subst_placeholder (message : String) (i : Nat) (arg : String) : String :=
  let pat := ("\x7b" ++ toString i ++ "\x7d").data
  String.mk (replace_all (message.data.length + 1) message.data pat arg.data)

/-- `TypeError::new(message, args, position)` of `lib.rs`: replace each
`{i}` with the i-th argument. -/
def TypeError.new (message : String) (args : List String) (position : Position) : TypeError :=
  ⟨(args.enum.foldl (fun m (p : Nat × String) => subst_placeholder m p.1 p.2) message),
   position⟩

/-- The message constants of `lib.rs`. -/
def EXPECTED_DATA_TYPE : String := "Expected \x7b0\x7d type, got \x7b1\x7d instead"

/-- `EXPECTED_ARGUMENTS` of `lib.rs`. -/
def EXPECTED_ARGUMENTS : String := "Expected \x7b0\x7d arguments, got \x7b1\x7d instead"

/-- `UNDEFINED_IDENTIFIER` of `lib.rs`. -/
def UNDEFINED_IDENTIFIER : String := "Undefined identifier: \x7b0\x7d"

/-- `UNKNOWN_TYPE` of `lib.rs`. -/
def UNKNOWN_TYPE : String := "Unknown type: \x7b0\x7d"

/-- `UNKNOWN_ARRAY_TYPE` of `lib.rs`. -/
def UNKNOWN_ARRAY_TYPE : String := "Unknown array type"

/-- `NOT_A_FUNCTION` of `lib.rs`. -/
def NOT_A_FUNCTION : String := "\x7b0\x7d is not a function"

/-- `type_error` of `lib.rs` (also standing in for the `type_error!`
macro): build a `CompileError::TypeError`. -/
def type_error (message : String) (replacements : List String) (position : Position) :
    CompileError :=
  .TypeError (TypeError.new message replacements position)

/-- Failure channel of the embedded stack compiler: a `CompileError`, a
panic (`todo!()` / `unimplemented!()` / `panic!`), or fuel exhaustion. -/
inductive CFail where
  | compileError (e : CompileError)
  | panicked
  | outOfFuel

/-- `CompileResult<T>` of `compiler.rs`. -/
abbrev CRes (α : Type) := Except CFail α

/-- `Code(pub Vec<Instruction>)` of `compiler.rs`. -/
structure Code where
  instructions : List Instruction

/-- `Code::new()`. -/
def Code.new : Code := ⟨[]⟩

/-- `Code::push_instruction`. -/
def Code.push_instruction (c : Code) (i : Instruction) : Code := ⟨c.instructions ++ [i]⟩

mutual
/-- Modelled from the spec: structural `DataType` equality, the observable
behaviour of `Type::eq_from_type` of the missing `tc.rs`
("equality is structural"). -/
def dt_beq : DataType → DataType → Bool
  | .Number, .Number => true
  | .String, .String => true
  | .Boolean, .Boolean => true
  | .Fn g1 p1 r1, .Fn g2 p2 r2 => g1 == g2 && dt_beq_list p1 p2 && dt_beq r1 r2
  | .Object k1 v1, .Object k2 v2 => dt_beq k1 k2 && dt_beq v1 v2
  | .Custom a, .Custom b => a == b
  | .Generic b1 a1, .Generic b2 a2 => dt_beq b1 b2 && dt_beq_list a1 a2
  | .Array a, .Array b => dt_beq a b
  | _, _ => false

def dt_beq_list : List DataType → List DataType → Bool
  | [], [] => true
  | a :: r1, b :: r2 => dt_beq a b && dt_beq_list r1 r2
  | _, _ => false
end

/-- Modelled from the spec: the `Type(DataType)` wrapper of the missing
`tc.rs` (named `TcType` since `Type` is reserved in Lean). -/
structure TcType where
  dt : DataType

/-- Modelled from the spec: `Type::eq_from_type` — structural equality. -/
def TcType.eq_from_type (a b : TcType) : Bool := dt_beq a.dt b.dt

mutual
/-- Modelled from the spec: the surface rendering of the parser-side
`DataType` used in error messages. -/
def data_type_to_string : DataType → String
  | .Number => "number"
  | .String => "string"
  | .Boolean => "boolean"
  | .Fn _ ps r => "fn(" ++ data_type_list_to_string ps ++ ") -> " ++ data_type_to_string r
  | .Object k v => "object " ++ data_type_to_string k ++ ": " ++ data_type_to_string v
  | .Custom name => name
  | .Generic b a => data_type_to_string b ++ "<" ++ data_type_list_to_string a ++ ">"
  | .Array t => data_type_to_string t ++ "[]"

def data_type_list_to_string : List DataType → String
  | [] => ""
  | [t] => data_type_to_string t
  | t :: rest => data_type_to_string t ++ ", " ++ data_type_list_to_string rest
end

/-- Modelled from the spec: `get_builtin` of `sntk_ir::builtin` — the
fixed registry test used by `compile_expression`'s call arm (`print` at
minimum); only presence matters to the compiler. -/
def get_builtin (name : String) : Bool := name == "print"

mutual
/-- Modelled from the spec: `Type::get_data_type_from_expression` of the
missing `tc.rs` — infer a `DataType` from an AST expression per the
spec's checker rules (§4.F), with no scopes available in this
signature: literals take their primitive types, arrays scan their
elements, function literals build a function type, arithmetic yields
`Number` and comparisons `Boolean`; identifiers and the other
scope-dependent forms fail with the corresponding error. -/
def get_data_type_from_expression : Nat → Expression → Position → CRes DataType
  | 0, _, _ => .error .outOfFuel
  | fuel + 1, expression, position =>
    match expression with
    | .NumberLiteral _ _ => .ok .Number
    | .StringLiteral _ _ => .ok .String
    | .BooleanLiteral _ _ => .ok .Boolean
    | .ArrayLiteral elements _ =>
      (array_element_types fuel elements position none).bind fun t =>
      match t with
      | some t => .ok (.Array t)
      | none => .error (.compileError (type_error UNKNOWN_ARRAY_TYPE [] position))
    | .FunctionLiteral generics parameters return_type _ _ _ =>
      .ok (.Fn generics (parameters.map (fun q => q.2)) return_type)
    | .PrefixExpression _ right _ => get_data_type_from_expression fuel right position
    | .InfixExpression left operator _ _ =>
      (get_data_type_from_expression fuel left position).bind fun left_type =>
      (match operator with
       | .Plus | .Minus | .Asterisk | .Slash | .Percent => .ok DataType.Number
       | .EQ | .NEQ | .LT | .GT | .LTE | .GTE => .ok DataType.Boolean
       | _ => .ok left_type)
    | .BlockExpression statements _ => get_data_type_from_statements fuel statements position
    | .Identifier id =>
      .error (.compileError (type_error UNDEFINED_IDENTIFIER [id.value] position))
    | _ => .error .panicked

/-- Modelled from the spec: uniform element type of an array literal at
the AST level (`None` when the literal is empty). -/
def array_element_types : Nat → List Expression → Position → Option DataType →
    CRes (Option DataType)
  | 0, _, _, _ => .error .outOfFuel
  | _ + 1, [], _, acc => .ok acc
  | fuel + 1, e :: rest, position, acc =>
    (get_data_type_from_expression fuel e position).bind fun t =>
    match acc with
    | none => array_element_types fuel rest position (some t)
    | some prev =>
      if dt_beq prev t then array_element_types fuel rest position (some prev)
      else
        .error (.compileError
          (type_error EXPECTED_DATA_TYPE [data_type_to_string prev, data_type_to_string t]
            position))

/-- Modelled from the spec: the type of a statement block (§4.F `Block`
rule, at the AST level): a last `return` takes its expression's type, a
last `let` its value's type, anything else `Boolean`. -/
def get_data_type_from_statements : Nat → List Statement → Position → CRes DataType
  | 0, _, _ => .error .outOfFuel
  | _ + 1, [], _ => .ok .Boolean
  | fuel + 1, [s], position =>
    match s with
    | .ReturnStatement value _ => get_data_type_from_expression fuel value position
    | .LetStatement _ _ value _ => get_data_type_from_expression fuel value position
    | _ => .ok .Boolean
  | fuel + 1, _ :: rest, position => get_data_type_from_statements fuel rest position
end

/-- The first-`Return`-truncation loop of `literal_value`'s function arm
(`helpers.rs` lines 29–37). -/
def take_until_return : List Statement → List Statement
  | [] => []
  | s :: rest =>
    match s with
    | .ReturnStatement _ _ => [s]
    | _ => s :: take_until_return rest

mutual
/-- `Compiler::compile_program` of `compiler.rs` (lines 61–77): reject a
program with parse errors, then compile statement by statement —
`TypeStatement` hits `compile_type_statement`'s `todo!()` and
`StructStatement` hits `unimplemented!()`, both modelled as the explicit
panic outcome — and finally hand the code to the stack interpreter. -/
def compile_program : Nat → Program → CRes Interpreter
  | 0, _ => .error .outOfFuel
  | fuel + 1, program =>
    if program.errors ≠ [] then .error (.compileError (.ParsingError program.errors))
    else
      (compile_statements fuel program.statements Code.new).bind fun code =>
      .ok ⟨code.instructions⟩

/-- The statement loop of `compile_program` (lines 66–74). -/
def compile_statements : Nat → List Statement → Code → CRes Code
  | 0, _, _ => .error .outOfFuel
  | _ + 1, [], code => .ok code
  | fuel + 1, statement :: rest, code =>
    (match statement with
     | .LetStatement data_type name value _ =>
       compile_let_statement fuel code name value data_type
     | .ReturnStatement value _ => compile_return_statement fuel code value
     | .TypeStatement _ _ _ _ => .error .panicked
     | .StructStatement _ _ => .error .panicked
     | .ExpressionStatement expression _ => compile_expression fuel code expression none
     : CRes Code).bind fun code =>
    compile_statements fuel rest code

/-- `Compiler::compile_let_statement` (lines 87–94). -/
def compile_let_statement : Nat → Code → Identifier → Expression → DataType → CRes Code
  | 0, _, _, _, _ => .error .outOfFuel
  | fuel + 1, code, name, value, data_type =>
    (compile_expression fuel code value (some data_type)).bind fun code =>
    .ok (code.push_instruction (.StoreName name.value))

/-- `Compiler::compile_return_statement` (lines 104–111). -/
def compile_return_statement : Nat → Code → Expression → CRes Code
  | 0, _, _ => .error .outOfFuel
  | fuel + 1, code, value =>
    (compile_expression fuel code value none).bind fun code =>
    .ok (code.push_instruction .Return)

/-- `Compiler::compile_expression` of `compiler.rs` (lines 120–290),
including the inlined `match_type!` macro of the literal arms.
`StructLiteral` and `IndexExpression` are `todo!()`, unknown
prefix/infix operators and unknown callee shapes `panic!`; the source
match has no `ObjectLiteral` arm (it targets an AST revision without
one), modelled as the panic of a non-exhaustive match. -/
def compile_expression : Nat → Code → Expression → Option DataType → CRes Code
  | 0, _, _, _ => .error .outOfFuel
  | fuel + 1, code, expression, data_type =>
    match expression with
    | .BlockExpression statements position =>
      (compile_block fuel statements position).bind fun (block, block_type) =>
      (match data_type with
       | some dt =>
         if ¬ (TcType.eq_from_type ⟨block_type⟩ ⟨dt⟩) then
           .error (.compileError (type_error EXPECTED_DATA_TYPE
             [data_type_to_string dt, data_type_to_string block_type] position))
         else .ok ()
       | none => .ok () : CRes Unit).bind fun _ =>
      .ok (code.push_instruction (.Block block))
    | .Identifier id => .ok (code.push_instruction (.LoadName id.value))
    | .NumberLiteral _ position =>
      (match_type_check fuel DataType.Number expression data_type position).bind fun _ =>
      (literal_value fuel expression).bind fun v =>
      .ok (code.push_instruction (.LoadConst v))
    | .StringLiteral _ position =>
      (match_type_check fuel DataType.String expression data_type position).bind fun _ =>
      (literal_value fuel expression).bind fun v =>
      .ok (code.push_instruction (.LoadConst v))
    | .BooleanLiteral _ position =>
      (match_type_check fuel DataType.Boolean expression data_type position).bind fun _ =>
      (literal_value fuel expression).bind fun v =>
      .ok (code.push_instruction (.LoadConst v))
    | .ArrayLiteral elements position =>
      (type_checked_array fuel elements position data_type).bind fun v =>
      .ok (code.push_instruction (.LoadConst v))
    | .FunctionLiteral generics parameters return_type body body_position position =>
      (type_checked_function fuel
          (.FunctionLiteral generics parameters return_type body body_position position)
          data_type).bind fun v =>
      .ok (code.push_instruction (.LoadConst v))
    | .StructLiteral _ _ => .error .panicked
    | .ObjectLiteral _ _ => .error .panicked
    | .PrefixExpression operator right _ =>
      (compile_expression fuel code right none).bind fun code =>
      match operator with
      | .Minus => .ok (code.push_instruction (.UnaryOp .Minus))
      | .Bang => .ok (code.push_instruction (.UnaryOp .Not))
      | _ => .error .panicked
    | .InfixExpression left operator right position =>
      (get_data_type_from_expression fuel left position).bind fun left_data_type =>
      (get_data_type_from_expression fuel right position).bind fun right_data_type =>
      (compile_expression fuel code left (some right_data_type)).bind fun code =>
      (compile_expression fuel code right (some left_data_type)).bind fun code =>
      (match data_type with
       | some dt =>
         if ¬ (TcType.eq_from_type ⟨dt⟩ ⟨left_data_type⟩) then
           .error (.compileError (type_error EXPECTED_DATA_TYPE
             [data_type_to_string dt, data_type_to_string left_data_type] position))
         else .ok ()
       | none => .ok () : CRes Unit).bind fun _ =>
      match operator with
      | .Plus => .ok (code.push_instruction (.BinaryOp .Add))
      | .Minus => .ok (code.push_instruction (.BinaryOp .Sub))
      | .Asterisk => .ok (code.push_instruction (.BinaryOp .Mul))
      | .Slash => .ok (code.push_instruction (.BinaryOp .Div))
      | .Percent => .ok (code.push_instruction (.BinaryOp .Mod))
      | .EQ => .ok (code.push_instruction (.BinaryOpEq .Eq))
      | .NEQ => .ok (code.push_instruction (.BinaryOpEq .Neq))
      | .LT => .ok (code.push_instruction (.BinaryOpEq .Lt))
      | .GT => .ok (code.push_instruction (.BinaryOpEq .Gt))
      | .LTE => .ok (code.push_instruction (.BinaryOpEq .Lte))
      | .GTE => .ok (code.push_instruction (.BinaryOpEq .Gte))
      | _ => .error .panicked
    | .CallExpression function arguments _ =>
      (compile_call_arguments fuel code arguments).bind fun code =>
      (match function with
       | .Identifier id =>
         if get_builtin id.value then .ok (code.push_instruction (.LoadGlobal id.value))
         else .ok (code.push_instruction (.LoadName id.value))
       | .FunctionLiteral _ _ _ _ _ _ => compile_expression fuel code function none
       | .CallExpression _ _ _ => compile_expression fuel code function none
       | _ => .error .panicked : CRes Code).bind fun code =>
      .ok (code.push_instruction (.CallFunction arguments.length))
    | .IndexExpression _ _ _ => .error .panicked
    | .IfExpression condition consequence consequence_position alternative position =>
      (compile_expression fuel code condition none).bind fun code =>
      (compile_block fuel consequence position).bind fun (cons_block, _) =>
      (match alternative with
       | some (alt_statements, _) =>
         (compile_block fuel alt_statements position).bind fun (alt_block, _) =>
         .ok (some alt_block)
       | none => .ok none : CRes (Option Block)).bind fun alt =>
      let _ := consequence_position
      .ok (code.push_instruction (.If cons_block alt))

/-- The `match_type!` macro of `compile_expression` (lines 121–132): take
the contextual type, or infer one, and require structural equality with
the literal's type. -/
def match_type_check : Nat → DataType → Expression → Option DataType → Position → CRes Unit
  | 0, _, _, _, _ => .error .outOfFuel
  | fuel + 1, expected, expression, data_type, position =>
    (match data_type with
     | some dt => .ok dt
     | none => get_data_type_from_expression fuel expression position : CRes DataType).bind
      fun dt =>
    if ¬ (TcType.eq_from_type ⟨dt⟩ ⟨expected⟩) then
      .error (.compileError (type_error EXPECTED_DATA_TYPE
        [data_type_to_string dt, data_type_to_string expected] position))
    else .ok ()

/-- The argument loop of the call arm (lines 246–248). -/
def compile_call_arguments : Nat → Code → List Expression → CRes Code
  | 0, _, _ => .error .outOfFuel
  | _ + 1, code, [] => .ok code
  | fuel + 1, code, argument :: rest =>
    (compile_expression fuel code argument none).bind fun code =>
    compile_call_arguments fuel code rest

/-- `compile_block` of `helpers.rs` (lines 51–56): compile the statements
as a fresh program and derive the block's type. -/
def compile_block : Nat → List Statement → Position → CRes (Block × DataType)
  | 0, _, _ => .error .outOfFuel
  | fuel + 1, statements, position =>
    (compile_program fuel (Program.new statements)).bind fun interp =>
    let block := Block.mk interp.instructions
    (get_data_type_from_instruction fuel block.instructions position).bind fun dt =>
    .ok (block, dt)

/-- `literal_value` of `helpers.rs` (lines 15–49): AST literals to stack
values; a function literal keeps only the statements up to its first
`return` and compiles them as a block; any other expression shape is a
`panic!`. -/
def literal_value : Nat → Expression → CRes Value
  | 0, _ => .error .outOfFuel
  | fuel + 1, expression =>
    match expression with
    | .NumberLiteral value _ => .ok (.LiteralValue (.Number value))
    | .BooleanLiteral value _ => .ok (.LiteralValue (.Boolean value))
    | .StringLiteral value _ => .ok (.LiteralValue (.String value))
    | .ArrayLiteral elements _ =>
      (literal_array_values fuel elements).bind fun values =>
      .ok (.LiteralValue (.Array values))
    | .FunctionLiteral _ parameters _ body _ position =>
      let statements := take_until_return body
      (compile_block fuel statements position).bind fun (block, _) =>
      .ok (.LiteralValue (.Function (parameters.map fun q => (q.1.value, q.2)) block))
    | _ => .error .panicked

/-- The element map of `literal_value`'s array arm. -/
def literal_array_values : Nat → List Expression → CRes (List Value)
  | 0, _ => .error .outOfFuel
  | _ + 1, [] => .ok []
  | fuel + 1, e :: rest =>
    (literal_value fuel e).bind fun v =>
    (literal_array_values fuel rest).bind fun vs =>
    .ok (v :: vs)

/-- `type_checked_array` of `helpers.rs` (lines 59–75), with
`expand_array_type` modelled from the spec as the uniform element scan
over the already-built values. -/
def type_checked_array : Nat → List Expression → Position → Option DataType → CRes Value
  | 0, _, _, _ => .error .outOfFuel
  | fuel + 1, elements, position, data_type =>
    (literal_value fuel (.ArrayLiteral elements position)).bind fun array =>
    (match array with
     | .LiteralValue (.Array values) => expand_array_type fuel values position data_type
     | _ => .error .panicked : CRes TcType).bind fun array_type =>
    (match data_type with
     | some dt => .ok dt
     | none =>
       get_data_type_from_expression fuel (.ArrayLiteral elements position) position
     : CRes DataType).bind fun dt =>
    if ¬ (TcType.eq_from_type ⟨dt⟩ array_type) then
      .error (.compileError (type_error EXPECTED_DATA_TYPE
        [data_type_to_string array_type.dt, data_type_to_string dt] position))
    else .ok array

/-- Modelled from the spec: `expand_array_type` of the missing `tc.rs` —
the array type of a list of values, adopting a contextual `Array`
element type for an empty literal and failing with `UnknownArrayType`
otherwise. -/
def expand_array_type : Nat → List Value → Position → Option DataType → CRes TcType
  | 0, _, _, _ => .error .outOfFuel
  | fuel + 1, values, position, data_type =>
    (value_element_types fuel values position none).bind fun t =>
    match t with
    | some t => .ok ⟨.Array t⟩
    | none =>
      match data_type with
      | some (DataType.Array t) => .ok ⟨.Array t⟩
      | _ => .error (.compileError (type_error UNKNOWN_ARRAY_TYPE [] position))

/-- Modelled from the spec: uniform element type of a value list. -/
def value_element_types : Nat → List Value → Position → Option DataType →
    CRes (Option DataType)
  | 0, _, _, _ => .error .outOfFuel
  | _ + 1, [], _, acc => .ok acc
  | fuel + 1, v :: rest, position, acc =>
    (get_data_type fuel v position).bind fun t =>
    match acc with
    | none => value_element_types fuel rest position (some t)
    | some prev =>
      if dt_beq prev t then value_element_types fuel rest position (some prev)
      else
        .error (.compileError (type_error EXPECTED_DATA_TYPE
          [data_type_to_string prev, data_type_to_string t] position))

/-- Modelled from the spec: `Type::get_data_type` of the missing `tc.rs` —
the data type of a runtime value. -/
def get_data_type : Nat → Value → Position → CRes DataType
  | 0, _, _ => .error .outOfFuel
  | fuel + 1, .LiteralValue v, position =>
    match v with
    | .Number _ => .ok .Number
    | .Boolean _ => .ok .Boolean
    | .String _ => .ok .String
    | .Array values =>
      (value_element_types fuel values position none).bind fun t =>
      match t with
      | some t => .ok (.Array t)
      | none => .error (.compileError (type_error UNKNOWN_ARRAY_TYPE [] position))
    | .Function parameters body =>
      (get_data_type_from_instruction fuel body.instructions position).bind fun ret =>
      .ok (.Fn none (parameters.map fun q => q.2) ret)

/-- Modelled from the spec: `Type::get_data_type_from_instruction` of the
missing `tc.rs` — the block rule over compiled stack code: a trailing
`Return` takes the type of the constant loaded before it, anything else
is `Boolean`. -/
def get_data_type_from_instruction : Nat → List Instruction → Position → CRes DataType
  | 0, _, _ => .error .outOfFuel
  | _ + 1, [], _ => .ok .Boolean
  | fuel + 1, [i, .Return], position =>
    match i with
    | .LoadConst v => get_data_type fuel v position
    | _ => .ok .Boolean
  | _ + 1, [_], _ => .ok .Boolean
  | fuel + 1, _ :: rest, position => get_data_type_from_instruction fuel rest position

/-- `type_checked_function` of `helpers.rs` (lines 78–92). -/
def type_checked_function : Nat → Expression → Option DataType → CRes Value
  | 0, _, _ => .error .outOfFuel
  | fuel + 1, expression, data_type =>
    match expression with
    | .FunctionLiteral _ _ _ _ _ position =>
      (literal_value fuel expression).bind fun function =>
      (get_data_type fuel function position).bind fun function_type =>
      (match data_type with
       | some dt => .ok dt
       | none => get_data_type_from_expression fuel expression position
       : CRes DataType).bind fun dt =>
      if ¬ (TcType.eq_from_type ⟨dt⟩ ⟨function_type⟩) then
        .error (.compileError (type_error EXPECTED_DATA_TYPE
          [data_type_to_string function_type, data_type_to_string dt] position))
      else .ok function
    | _ => .error .panicked
end

end StackC

/-! Shared reduction lemmas for `Except.bind`. -/

@[simp]
theorem ok_bind {ε α β : Type} (a : α) (f : α → Except ε β) :
    (Except.ok a : Except ε α).bind f = f a := rfl

@[simp]
theorem error_bind {ε α β : Type} (e : ε) (f : α → Except ε β) :
    (Except.error e : Except ε α).bind f = Except.error e := rfl

/-- C1: the claim says an array literal checked against a contextual
`Array(E)` succeeds exactly when the annotated type structurally equals
the inferred type, and in particular `let a: number[] = [1,2,3];`
compiles.  The source's comparison is inverted
(`if data_type == &DataType::Array(..)` *returns the error*, checker.rs
line 257): checking `[1,2,3]` against `number[]` fails with
`ExpectedDataType("number[]", "number[]")`, while checking `[1,2]`
against `string[]` succeeds with type `number[]`. -/
theorem c1_array_context_check_inverted :
    Checker.get_type_from_ir_expression 20
        (.Literal (.Array [.Literal (.Number 1), .Literal (.Number 2), .Literal (.Number 3)]))
        (.mk [] none) (.mk [] none) (some (.Array .Number)) ⟨1, 5⟩
      = .error (.typeError ⟨.ExpectedDataType "number[]" "number[]", ⟨1, 5⟩⟩) ∧
    Checker.get_type_from_ir_expression 20
        (.Literal (.Array [.Literal (.Number 1), .Literal (.Number 2)]))
        (.mk [] none) (.mk [] none) (some (.Array .String)) ⟨1, 5⟩
      = .ok (.Array .Number) :=
  ⟨rfl, rfl⟩

/-- C4: the claim says struct statements, `type` statements and the other
reserved-but-unimplemented constructs produce an explicit "Unsupported"
error and never panic.  The sources panic instead: `compile_program`
hits `unimplemented!()` on a struct statement and `todo!()` on a `type`
statement (compiler.rs lines 70–71, 116), and the parser hits
`unimplemented!()` on `if` (parser.rs line 348). -/
theorem c4_unimplemented_panics :
    StackC.compile_program 10
        ⟨[.StructStatement ⟨"point", ⟨1, 1⟩⟩ ⟨1, 1⟩], []⟩ = .error .panicked ∧
    StackC.compile_program 10
        ⟨[.TypeStatement .Number ⟨"n", ⟨1, 1⟩⟩ [] ⟨1, 1⟩], []⟩ = .error .panicked ∧
    StackC.compile_program 10
        ⟨[.ExpressionStatement (.StructLiteral ⟨"point", ⟨1, 1⟩⟩ ⟨1, 1⟩) ⟨1, 1⟩], []⟩
      = .error .panicked ∧
    Core.parse_program_of 100 "if;" = .panic :=
  ⟨rfl, rfl, rfl, rfl⟩

/-- C7 counterexample: the claim says an out-of-range index `i` fails with
`IndexOutOfBounds(i)`; but for `a = [1]`, the index `-1` (out of range)
does not fail — the `as usize` cast saturates it to `0` and element 0 is
returned. -/
theorem c7_index_negative_counterexample :
    Ir.eval_expression 10 (Ir.IrEnvironment.new none)
        (.Index (.Literal (.Array [.Literal (.Number 1)]))
          (.Prefix .Minus (.Literal (.Number 1)))) ⟨1, 1⟩
      = .ok (.Number 1) := rfl

/-- C7, amended: the interpreter first converts the evaluated numeric
index with Rust's saturating `f64 as usize` cast (negative values become
0, modelled by `Int.toNat`); the element expression at the converted
index is evaluated as the result when in range, and out of range the
error is `IndexOutOfBounds` of the *converted* index. -/
theorem c7_index_cast_semantics
    (fuel : Nat) (env : Ir.IrEnvironment) (left index : Ir.IrExpression)
    (elems : List Ir.IrExpression) (i : Int) (pos : Core.Position)
    (hleft : Ir.eval_expression fuel env left pos = .ok (.Array elems))
    (hindex : Ir.eval_expression fuel env index pos = .ok (.Number i)) :
    Ir.eval_expression (fuel + 1) env (.Index left index) pos =
      match elems.get? i.toNat with
      | some v => Ir.eval_expression fuel env v pos
      | none => .error (.err ⟨.IndexOutOfBounds i.toNat, pos⟩) := by
  simp [Ir.eval_expression, hleft, hindex]

/-- C7 witness: `a[5]` on the one-element array fails with
`IndexOutOfBounds(5)` (the claim's own example, recovered from the
amended theorem). -/
theorem c7_index_cast_semantics_witness :
    Ir.eval_expression 10 (Ir.IrEnvironment.new none)
        (.Index (.Literal (.Array [.Literal (.Number 1)]))
          (.Literal (.Number 5))) ⟨1, 1⟩
      = .error (.err ⟨.IndexOutOfBounds 5, ⟨1, 1⟩⟩) := by
  have h := c7_index_cast_semantics 9 (Ir.IrEnvironment.new none)
    (.Literal (.Array [.Literal (.Number 1)])) (.Literal (.Number 5))
    [.Literal (.Number 1)] 5 ⟨1, 1⟩ rfl rfl
  exact h.trans rfl

/-- C8 counterexample: the claim says `<=` is recognized (by one-character
lookahead) as a single token; this lexer emits two tokens, `LT` then
`Assign`, and in particular not the single `LTE` token. -/
theorem c8_lte_two_tokens_counterexample :
    Core.tokens_of "<=" = [.LT, .Assign] ∧
    ([Core.Tokens.LT, Core.Tokens.Assign] ≠ ([.LTE] : List Core.Tokens)) :=
  ⟨rfl, by decide⟩

/-- C8, amended: of the five two-character operator spellings, only `==`
and `!=` are detected by one-character lookahead as single tokens;
`<=`, `>=` and `->` are emitted as two consecutive one-character tokens
(`LT Assign`, `GT Assign`, `Minus GT`). -/
theorem c8_two_char_operator_tokens :
    Core.tokens_of "==" = [.EQ] ∧
    Core.tokens_of "!=" = [.NEQ] ∧
    Core.tokens_of "<=" = [.LT, .Assign] ∧
    Core.tokens_of ">=" = [.GT, .Assign] ∧
    Core.tokens_of "->" = [.Minus, .GT] :=
  ⟨rfl, rfl, rfl, rfl, rfl⟩

/-- C9: evaluating a `Return` instruction with `eval_instruction` is a
no-op — it does not evaluate its expression and leaves the environment
unchanged (first conjunct, for every expression, even one whose
evaluation would fail).  The returned expression is evaluated only by
the block's `last` protocol and only as the final instruction: a block
whose non-final `Return` carries an unbound identifier evaluates without
error to the default `Boolean(false)` (second conjunct), while a block
ending in a `Return` does evaluate that expression (third conjunct). -/
theorem c9_return_instruction_noop :
    (∀ (fuel : Nat) (env : Ir.IrEnvironment) (e : Ir.IrExpression) (p : Nat × Nat),
      Ir.eval_instruction (fuel + 1) env (.mk (.Return e) p) = .ok env) ∧
    Ir.eval_expression 10 (Ir.IrEnvironment.new none)
        (.Block [.mk (.Return (.Identifier "nope")) (1, 1),
                 .mk (.Expression (.Literal (.Number 1))) (1, 2)]) ⟨1, 1⟩
      = .ok (.Boolean false) ∧
    Ir.eval_expression 10 (Ir.IrEnvironment.new none)
        (.Block [.mk (.StoreName "x" (.Literal (.Number 1))) (1, 1),
                 .mk (.Return (.Identifier "x")) (1, 2)]) ⟨1, 1⟩
      = .ok (.Number 1) := by
  refine ⟨fun fuel env e p => ?_, rfl, rfl⟩
  simp [Ir.eval_instruction]

/-! Helper lemmas for the remaining claims. -/

/-- With an empty custom-type scope, `custom_data_type` can only return its
input unchanged. -/
theorem custom_data_type_empty :
    ∀ (t : Ir.DataType) (pos : Core.Position) (u : Ir.DataType),
      Checker.custom_data_type t (.mk [] none) pos = .ok u → u = t
  | .Number, _, _, h => by
      simp only [Checker.custom_data_type, Except.ok.injEq] at h; exact h.symm
  | .String, _, _, h => by
      simp only [Checker.custom_data_type, Except.ok.injEq] at h; exact h.symm
  | .Boolean, _, _, h => by
      simp only [Checker.custom_data_type, Except.ok.injEq] at h; exact h.symm
  | .Unknown, _, _, h => by
      simp only [Checker.custom_data_type, Except.ok.injEq] at h; exact h.symm
  | .Array _, _, _, h => by
      simp only [Checker.custom_data_type, Except.ok.injEq] at h; exact h.symm
  | .Generic _, _, _, h => by
      simp only [Checker.custom_data_type, Except.ok.injEq] at h; exact h.symm
  | .Custom name, pos, u, h => by
      simp [Checker.custom_data_type, Checker.CustomTypes.get,
        Checker.CustomTypes.getLocal] at h
  | .Fn (.mk g ps ret), pos, u, h => by
      simp only [Checker.custom_data_type] at h
      cases hr : Checker.custom_data_type ret (.mk [] none) pos with
      | error e => rw [hr] at h; simp at h
      | ok rt =>
        rw [hr] at h
        simp only [ok_bind, Except.ok.injEq] at h
        have hrt : rt = ret := custom_data_type_empty ret pos rt hr
        subst hrt
        exact h.symm

/-- The final line-218 resolution of the checker, under an empty custom
scope: a successful result is a fixed point of `custom_data_type`. -/
theorem apply_custom_empty_post (r : Checker.CheckResult Ir.DataType) (pos : Core.Position)
    (t : Ir.DataType)
    (h : Checker.apply_custom r (.mk [] none) pos = .ok t) :
    Checker.custom_data_type t (.mk [] none) pos = .ok t := by
  cases r with
  | error e => simp [Checker.apply_custom] at h
  | ok x =>
    simp only [Checker.apply_custom, ok_bind] at h
    have hx := custom_data_type_empty x pos t h
    subst hx
    exact h

/-- `block_last_type` through `List.getLast?`: the recursion stops at the
last instruction and dispatches on its shape. -/
theorem block_last_type_getLast
    (g : Ir.IrExpression → Checker.CheckResult Ir.DataType) (c : Checker.CustomTypes)
    (pos : Core.Position) :
    ∀ (b : List Ir.Instruction) (i : Ir.Instruction), b.getLast? = some i →
      Checker.block_last_type g c pos b =
        match i with
        | .mk (.Return e) _ => Checker.apply_custom (g e) c pos
        | .mk (.StoreName _ e) _ => Checker.apply_custom (g e) c pos
        | _ => .ok Ir.DataType.Boolean
  | [], i, h => by simp at h
  | [x], i, h => by
      simp only [List.getLast?_singleton, Option.some.injEq] at h
      subst h
      cases x with
      | mk it p => cases it <;> rfl
  | x :: y :: rest, i, h => by
      rw [List.getLast?_cons_cons] at h
      exact block_last_type_getLast g c pos (y :: rest) i h

/-- A block's checker result is either the early `Ok(Boolean)` or the
line-218 resolution of the last `Return`/`StoreName` expression. -/
theorem block_last_type_shape
    (g : Ir.IrExpression → Checker.CheckResult Ir.DataType) (c : Checker.CustomTypes)
    (pos : Core.Position) :
    ∀ b : List Ir.Instruction,
      Checker.block_last_type g c pos b = .ok Ir.DataType.Boolean ∨
      ∃ e, Checker.block_last_type g c pos b = Checker.apply_custom (g e) c pos
  | [] => Or.inl rfl
  | [x] => by
      cases x with
      | mk it p =>
        cases it with
        | StoreName n e => exact Or.inr ⟨e, rfl⟩
        | Expression e => exact Or.inl rfl
        | Return e => exact Or.inr ⟨e, rfl⟩
        | None => exact Or.inl rfl
  | x :: y :: rest => block_last_type_shape g c pos (y :: rest)

/-- Under an empty custom scope every successful checker result is a fixed
point of `custom_data_type`: each branch ends in the line-218 resolution,
and the `Block` early `Boolean` is itself a fixed point. -/
theorem get_type_custom_fixed (fuel : Nat) (e : Ir.IrExpression) (d : Checker.DeclaredTypes)
    (pos : Core.Position) (t : Ir.DataType)
    (h : Checker.get_type_from_ir_expression fuel e d (.mk [] none) none pos = .ok t) :
    Checker.custom_data_type t (.mk [] none) pos = .ok t := by
  cases fuel with
  | zero => simp [Checker.get_type_from_ir_expression] at h
  | succ n =>
    cases e with
    | Identifier name =>
      simp only [Checker.get_type_from_ir_expression, Checker.resolve_option_data_type,
        ok_bind] at h
      exact apply_custom_empty_post _ _ _ h
    | Literal v =>
      simp only [Checker.get_type_from_ir_expression, Checker.resolve_option_data_type,
        ok_bind] at h
      exact apply_custom_empty_post _ _ _ h
    | Block b =>
      simp only [Checker.get_type_from_ir_expression, Checker.resolve_option_data_type,
        ok_bind] at h
      rcases block_last_type_shape
          (fun e' => Checker.get_type_from_ir_expression n e' d (.mk [] none) none pos)
          (.mk [] none) pos b with hb | ⟨e', hb⟩
      · rw [hb] at h
        have ht : t = Ir.DataType.Boolean := by
          simpa [eq_comm] using h
        subst ht
        rfl
      · rw [hb] at h
        exact apply_custom_empty_post _ _ _ h
    | If c₁ c₂ a =>
      simp only [Checker.get_type_from_ir_expression, Checker.resolve_option_data_type,
        ok_bind] at h
      exact apply_custom_empty_post _ _ _ h
    | Call f as =>
      simp only [Checker.get_type_from_ir_expression, Checker.resolve_option_data_type,
        ok_bind] at h
      exact apply_custom_empty_post _ _ _ h
    | Index l i =>
      simp only [Checker.get_type_from_ir_expression, Checker.resolve_option_data_type,
        ok_bind] at h
      exact apply_custom_empty_post _ _ _ h
    | Prefix op r =>
      simp only [Checker.get_type_from_ir_expression, Checker.resolve_option_data_type,
        ok_bind] at h
      exact apply_custom_empty_post _ _ _ h
    | Infix l op r =>
      simp only [Checker.get_type_from_ir_expression, Checker.resolve_option_data_type,
        ok_bind] at h
      exact apply_custom_empty_post _ _ _ h

/-- The spread walk of `check_call_arguments`: after any run of matching
non-spread parameters, a matching spread parameter breaks out with
`arguments_len = its index + 1`. -/
theorem check_call_arguments_spread
    (get_type : Ir.IrExpression → Checker.CheckResult Ir.DataType) (pos : Core.Position)
    (t : Ir.DataType) :
    ∀ (pre : List (Ir.DataType × Bool)) (args₁ : List Ir.IrExpression)
      (a : Ir.IrExpression) (rest : List Ir.IrExpression) (idx : Nat),
      List.Forall₂ (fun (p : Ir.DataType × Bool) (arg : Ir.IrExpression) =>
        p.2 = false ∧ get_type arg = .ok p.1) pre args₁ →
      get_type a = .ok t →
      Checker.check_call_arguments get_type pos (pre ++ [(t, true)]) (args₁ ++ a :: rest) idx
        = .ok (some (idx + pre.length + 1)) := by
  intro pre args₁ a rest idx hall ha
  induction hall generalizing idx with
  | nil =>
    simp [Checker.check_call_arguments, ha]
  | @cons p arg pre' args₁' h₁ h₂ ih =>
    obtain ⟨hspread, htype⟩ := h₁
    simp only [List.cons_append, Checker.check_call_arguments, htype, ok_bind, hspread,
      Bool.false_eq_true, if_false, ne_eq, not_true_eq_false, List.append_eq]
    rw [ih (idx + 1)]
    simp only [List.length_cons, Except.ok.injEq, Option.some.injEq]
    omega

/-- `bind_parameters` only consumes as many values as there are names: the
zip drops every argument beyond the parameter count. -/
theorem bind_parameters_take :
    ∀ (names : List Ir.Identifier) (env : Ir.IrEnvironment) (vs : List Ir.LiteralValue),
      Ir.bind_parameters env names vs = Ir.bind_parameters env names (vs.take names.length)
  | [], _, _ => rfl
  | _ :: _, _, [] => rfl
  | nm :: ns, env, v :: vs' => by
    simp only [List.length_cons, List.take_succ_cons, Ir.bind_parameters]
    exact bind_parameters_take ns (env.set nm v) vs'

/-- The statement loop of `parse_program` keeps the claimed dichotomy as an
invariant: on `EOF` it returns either the accumulated statements with no
errors, or the accumulated errors with no statements. -/
theorem parse_program_loop_dichotomy :
    ∀ (fuel : Nat) (p : Core.Parser) (acc : List Core.Statement) (prog : Core.Program),
      Core.parse_program_loop fuel p acc = .ok prog →
      prog.errors = [] ∨ (prog.errors ≠ [] ∧ prog.statements = []) := by
  intro fuel
  induction fuel with
  | zero =>
    intro p acc prog h
    simp [Core.parse_program_loop] at h
  | succ n ih =>
    intro p acc prog h
    simp only [Core.parse_program_loop] at h
    by_cases he : p.current_token.token_type = Core.Tokens.EOF
    · rw [if_pos he] at h
      by_cases hl : p.errors.length > 0
      · rw [if_pos hl] at h
        injection h with h
        subst h
        refine Or.inr ⟨fun hnil => ?_, rfl⟩
        rw [show ({ statements := [], errors := p.errors } : Core.Program).errors
              = p.errors from rfl] at hnil
        simp [hnil] at hl
      · rw [if_neg hl] at h
        injection h with h
        subst h
        exact Or.inl (by simpa using Nat.le_antisymm (Nat.not_lt.mp hl) (Nat.zero_le _))
    · rw [if_neg he] at h
      cases hs : Core.parse_statement n p with
      | ok sp =>
        obtain ⟨st, p'⟩ := sp
        rw [hs] at h
        exact ih p'.next_token (acc ++ [st]) prog h
      | error f =>
        rw [hs] at h
        cases f with
        | err e p' => exact ih _ _ prog h
        | panicked => simp at h
        | outOfFuel => simp at h

/-! The remaining claim theorems. -/

/-- C2: when the callee of a call has a function type with a spread-flagged
parameter, the checker's zip walk breaks at the spread parameter with the
effective argument count set to its index plus one (third conjunct), the
arity comparison is made against that count and a mismatch yields
`ExpectedArguments(expected, got)` (second conjunct); in particular with
`f : fn(...xs: number) -> number`, `f()` is rejected with
`ExpectedArguments(1, 0)` (first conjunct). -/
theorem c2_spread_arity :
    (Checker.get_type_from_ir_expression 2 (.Call (.Identifier "f") [])
        (.mk [("f", .Fn (.mk none [(.Number, true)] .Number))] none) (.mk [] none)
        none ⟨1, 1⟩
      = .error (.typeError ⟨.ExpectedArguments 1 0, ⟨1, 1⟩⟩)) ∧
    (∀ (fuel : Nat) (d : Checker.DeclaredTypes) (c : Checker.CustomTypes)
       (pos : Core.Position) (callee : Ir.IrExpression) (g : Option (List String))
       (ps : List (Ir.DataType × Bool)) (ret : Ir.DataType)
       (args : List Ir.IrExpression) (n : Nat),
      Checker.get_type_from_ir_expression fuel callee d c none pos
        = .ok (.Fn (.mk g ps ret)) →
      Checker.check_call_arguments
          (fun e => Checker.get_type_from_ir_expression fuel e d c none pos) pos ps args 0
        = .ok (some n) →
      Checker.get_type_from_ir_expression (fuel + 1) (.Call callee args) d c none pos
        = Checker.apply_custom
            (if ps.length ≠ n then
               .error (.typeError ⟨.ExpectedArguments ps.length args.length, pos⟩)
             else .ok ret) c pos) ∧
    (∀ (get_type : Ir.IrExpression → Checker.CheckResult Ir.DataType) (pos : Core.Position)
       (t : Ir.DataType) (pre : List (Ir.DataType × Bool)) (args₁ : List Ir.IrExpression)
       (a : Ir.IrExpression) (rest : List Ir.IrExpression) (idx : Nat),
      List.Forall₂ (fun (p : Ir.DataType × Bool) (arg : Ir.IrExpression) =>
        p.2 = false ∧ get_type arg = .ok p.1) pre args₁ →
      get_type a = .ok t →
      Checker.check_call_arguments get_type pos (pre ++ [(t, true)]) (args₁ ++ a :: rest) idx
        = .ok (some (idx + pre.length + 1))) := by
  refine ⟨rfl, ?_, fun get_type pos t pre args₁ a rest idx hall ha =>
    check_call_arguments_spread get_type pos t pre args₁ a rest idx hall ha⟩
  intro fuel d c pos callee g ps ret args n hc hw
  simp only [Checker.get_type_from_ir_expression, Checker.resolve_option_data_type,
    ok_bind, hc, hw]

/-- C2 witness: `f(1,2,3)` against `f : fn(...xs: number) -> number` type
checks to `number` — the walk breaks at the spread with effective count 1,
which matches the single declared parameter. -/
theorem c2_spread_arity_witness :
    Checker.get_type_from_ir_expression 3
        (.Call (.Identifier "f")
          [.Literal (.Number 1), .Literal (.Number 2), .Literal (.Number 3)])
        (.mk [("f", .Fn (.mk none [(.Number, true)] .Number))] none) (.mk [] none)
        none ⟨1, 1⟩
      = .ok Ir.DataType.Number := by
  have h := c2_spread_arity.2.1 2
    (.mk [("f", .Fn (.mk none [(.Number, true)] .Number))] none) (.mk [] none) ⟨1, 1⟩
    (.Identifier "f") none [(.Number, true)] .Number
    [.Literal (.Number 1), .Literal (.Number 2), .Literal (.Number 3)] 1 rfl rfl
  exact h.trans rfl

/-- C3 counterexample: the claim says `parse_program` returns a program for
every input string; on `if;` it returns nothing at all — `parse_expression`
hits `unimplemented!()` (parser.rs line 348) and the process panics. -/
theorem c3_parse_if_panics : Core.parse_program_of 100 "if;" = .panic := rfl

/-- C3, amended: whenever `parse_program` does return a program (it panics
on `if` and can diverge on prefix expressions), that program has either an
empty error list, or a non-empty error list and an empty statement list —
never statements and errors together. -/
theorem c3_parse_program_dichotomy (fuel : Nat) (input : String) (prog : Core.Program)
    (h : Core.parse_program_of fuel input = .ok prog) :
    prog.errors = [] ∨ (prog.errors ≠ [] ∧ prog.statements = []) :=
  parse_program_loop_dichotomy fuel (Core.Parser.from_input input) [] prog h

/-- C3 witness: the empty input parses to the empty program with no errors,
which satisfies the dichotomy's first branch. -/
theorem c3_parse_program_dichotomy_witness :
    (Core.Program.mk [] []).errors = [] ∨
      ((Core.Program.mk [] []).errors ≠ [] ∧ (Core.Program.mk [] []).statements = []) :=
  c3_parse_program_dichotomy 100 "" ⟨[], []⟩ rfl

/-- C5: the checker's block rule.  (1) The empty block has type `Boolean`.
(2) A block whose last instruction is neither `Return` nor `StoreName` has
type `Boolean`.  (3) A block whose last instruction is a `Return` or
`StoreName` gets the checked type of that instruction's expression passed
through the final `custom_data_type` resolution; (4) under an empty custom
scope that resolution is the identity, so the block's type is exactly the
expression's type. -/
theorem c5_block_type :
    (∀ (fuel : Nat) (d : Checker.DeclaredTypes) (c : Checker.CustomTypes)
       (pos : Core.Position),
      Checker.get_type_from_ir_expression (fuel + 1) (.Block []) d c none pos
        = .ok Ir.DataType.Boolean) ∧
    (∀ (fuel : Nat) (b : List Ir.Instruction) (i : Ir.Instruction)
       (d : Checker.DeclaredTypes) (c : Checker.CustomTypes) (pos : Core.Position),
      b.getLast? = some i →
      (∀ e, i.instruction ≠ .Return e) →
      (∀ n e, i.instruction ≠ .StoreName n e) →
      Checker.get_type_from_ir_expression (fuel + 1) (.Block b) d c none pos
        = .ok Ir.DataType.Boolean) ∧
    (∀ (fuel : Nat) (b : List Ir.Instruction) (i : Ir.Instruction) (e : Ir.IrExpression)
       (d : Checker.DeclaredTypes) (c : Checker.CustomTypes) (pos : Core.Position),
      b.getLast? = some i →
      (i.instruction = .Return e ∨ ∃ n, i.instruction = .StoreName n e) →
      Checker.get_type_from_ir_expression (fuel + 1) (.Block b) d c none pos
        = Checker.apply_custom
            (Checker.get_type_from_ir_expression fuel e d c none pos) c pos) ∧
    (∀ (fuel : Nat) (b : List Ir.Instruction) (i : Ir.Instruction) (e : Ir.IrExpression)
       (d : Checker.DeclaredTypes) (pos : Core.Position),
      b.getLast? = some i →
      (i.instruction = .Return e ∨ ∃ n, i.instruction = .StoreName n e) →
      Checker.get_type_from_ir_expression (fuel + 1) (.Block b) d (.mk [] none) none pos
        = Checker.get_type_from_ir_expression fuel e d (.mk [] none) none pos) := by
  have general : ∀ (fuel : Nat) (b : List Ir.Instruction) (i : Ir.Instruction)
      (e : Ir.IrExpression) (d : Checker.DeclaredTypes) (c : Checker.CustomTypes)
      (pos : Core.Position),
      b.getLast? = some i →
      (i.instruction = .Return e ∨ ∃ n, i.instruction = .StoreName n e) →
      Checker.get_type_from_ir_expression (fuel + 1) (.Block b) d c none pos
        = Checker.apply_custom
            (Checker.get_type_from_ir_expression fuel e d c none pos) c pos := by
    intro fuel b i e d c pos hlast hcase
    have hb := block_last_type_getLast
      (fun e' => Checker.get_type_from_ir_expression fuel e' d c none pos) c pos b i hlast
    rcases hcase with hr | ⟨nm, hs⟩
    · cases i with
      | mk it p =>
        simp only [Ir.Instruction.instruction] at hr
        subst hr
        exact hb
    · cases i with
      | mk it p =>
        simp only [Ir.Instruction.instruction] at hs
        subst hs
        exact hb
  refine ⟨fun fuel d c pos => rfl, ?_, general, ?_⟩
  · intro fuel b i d c pos hlast h1 h2
    have hb := block_last_type_getLast
      (fun e' => Checker.get_type_from_ir_expression fuel e' d c none pos) c pos b i hlast
    cases i with
    | mk it p =>
      cases it with
      | StoreName nm e => exact absurd rfl (h2 nm e)
      | Expression e => exact hb
      | Return e => exact absurd rfl (h1 e)
      | None => exact hb
  · intro fuel b i e d pos hlast hcase
    rw [general fuel b i e d (.mk [] none) pos hlast hcase]
    cases hres : Checker.get_type_from_ir_expression fuel e d (.mk [] none) none pos with
    | error f => rfl
    | ok u => exact get_type_custom_fixed fuel e d pos u hres

/-- C5 witness: a one-instruction block `{ return 3; }` checks, under empty
scopes, to the same type as the literal `3` itself — namely `number`. -/
theorem c5_block_type_witness :
    Checker.get_type_from_ir_expression 6
        (.Block [.mk (.Return (.Literal (.Number 3))) (1, 1)])
        (.mk [] none) (.mk [] none) none ⟨1, 1⟩
      = .ok Ir.DataType.Number := by
  have h := c5_block_type.2.2.2 5 [.mk (.Return (.Literal (.Number 3))) (1, 1)]
    (.mk (.Return (.Literal (.Number 3))) (1, 1)) (.Literal (.Number 3))
    (.mk [] none) ⟨1, 1⟩ (by simp) (Or.inl rfl)
  exact h.trans rfl

/-- C6: for a call whose callee is a bare identifier, after the arguments
evaluate, the environment chain is consulted first: a hit is called as the
function value (second conjunct), and only on a miss is the builtin
registry consulted, with `UndefinedVariable` when that also misses (first
conjunct).  Concretely, a user binding named `print` shadows the builtin
(third conjunct) while the empty environment reaches the builtin (fourth
conjunct). -/
theorem c6_call_identifier_precedence :
    (∀ (fuel : Nat) (env : Ir.IrEnvironment) (name : Ir.Identifier)
       (args : List Ir.IrExpression) (vs : List Ir.LiteralValue) (pos : Core.Position),
      env.get name = none →
      Ir.eval_expression_list (fun e => Ir.eval_expression fuel env e pos) args = .ok vs →
      Ir.eval_expression (fuel + 1) env (.Call (.Identifier name) args) pos =
        (match Ir.get_builtin_function name with
         | some f => .ok (f vs)
         | none => .error (.err ⟨.UndefinedVariable name, pos⟩))) ∧
    (∀ (fuel : Nat) (env : Ir.IrEnvironment) (name : Ir.Identifier)
       (args : List Ir.IrExpression) (vs : List Ir.LiteralValue) (pos : Core.Position)
       (v : Ir.LiteralValue),
      env.get name = some v →
      Ir.eval_expression_list (fun e => Ir.eval_expression fuel env e pos) args = .ok vs →
      Ir.eval_expression (fuel + 1) env (.Call (.Identifier name) args) pos =
        Ir.call_function_value fuel env v vs pos) ∧
    (Ir.eval_expression 10
        ((Ir.IrEnvironment.new none).set "print"
          (.Function [] [.mk (.Return (.Literal (.Number 42))) (1, 1)] .Number none))
        (.Call (.Identifier "print") []) ⟨1, 1⟩
      = .ok (.Number 42)) ∧
    (Ir.eval_expression 10 (Ir.IrEnvironment.new none)
        (.Call (.Identifier "print") []) ⟨1, 1⟩
      = .ok (.Boolean false)) := by
  refine ⟨?_, ?_, rfl, rfl⟩
  · intro fuel env name args vs pos h1 h2
    simp only [Ir.eval_expression, h2, ok_bind, h1]
  · intro fuel env name args vs pos v h1 h2
    simp only [Ir.eval_expression, h2, ok_bind, h1]

/-- C6 witness: in the empty environment, calling `print` reaches the
builtin registry and yields its result. -/
theorem c6_call_identifier_precedence_witness :
    Ir.eval_expression 10 (Ir.IrEnvironment.new none)
        (.Call (.Identifier "print") []) ⟨1, 1⟩
      = .ok (.Boolean false) := by
  have h := c6_call_identifier_precedence.1 9 (Ir.IrEnvironment.new none) "print" [] []
    ⟨1, 1⟩ rfl rfl
  exact h.trans rfl

/-- C10: the interpreter checks no arity at call time.  `bind_parameters`
binds pairwise by position and drops every argument beyond the parameter
count (first conjunct), so a call result only depends on the first
`params.length` argument values (second conjunct); an extra argument is
evaluated but ignored (third and sixth conjuncts), and a call with fewer
arguments proceeds with the unmatched parameters unbound (fourth conjunct),
failing only when the body reads one of them (fifth conjunct). -/
theorem c10_call_no_arity_check :
    (∀ (env : Ir.IrEnvironment) (names : List Ir.Identifier) (vs : List Ir.LiteralValue),
      Ir.bind_parameters env names vs
        = Ir.bind_parameters env names (vs.take names.length)) ∧
    (∀ (fuel : Nat) (env : Ir.IrEnvironment) (params : List Ir.Parameter)
       (block : List Ir.Instruction) (rt : Ir.DataType) (eo : Option Ir.IrEnvironment)
       (vs : List Ir.LiteralValue) (pos : Core.Position),
      Ir.call_function_value (fuel + 1) env (.Function params block rt eo) vs pos
        = Ir.call_function_value (fuel + 1) env (.Function params block rt eo)
            (vs.take params.length) pos) ∧
    (Ir.eval_expression 10 (Ir.IrEnvironment.new none)
        (.Call
          (.Literal (.Function [⟨"x", .Number, false⟩]
            [.mk (.Return (.Identifier "x")) (1, 1)] .Number none))
          [.Literal (.Number 1), .Literal (.Number 2)]) ⟨1, 1⟩
      = .ok (.Number 1)) ∧
    (Ir.eval_expression 10 (Ir.IrEnvironment.new none)
        (.Call
          (.Literal (.Function [⟨"x", .Number, false⟩, ⟨"y", .Number, false⟩]
            [.mk (.Return (.Identifier "x")) (1, 1)] .Number none))
          [.Literal (.Number 1)]) ⟨1, 1⟩
      = .ok (.Number 1)) ∧
    (Ir.eval_expression 10 (Ir.IrEnvironment.new none)
        (.Call
          (.Literal (.Function [⟨"x", .Number, false⟩, ⟨"y", .Number, false⟩]
            [.mk (.Return (.Identifier "y")) (1, 1)] .Number none))
          [.Literal (.Number 1)]) ⟨1, 1⟩
      = .error (.err ⟨.UndefinedVariable "y", ⟨1, 1⟩⟩)) ∧
    (Ir.eval_expression 10 (Ir.IrEnvironment.new none)
        (.Call
          (.Literal (.Function [] [.mk (.Return (.Literal (.Number 7))) (1, 1)]
            .Number none))
          [.Identifier "nope"]) ⟨1, 1⟩
      = .error (.err ⟨.UndefinedVariable "nope", ⟨1, 1⟩⟩)) := by
  refine ⟨fun env names vs => bind_parameters_take names env vs, ?_, rfl, rfl, rfl, rfl⟩
  intro fuel env params block rt eo vs pos
  simp only [Ir.call_function_value]
  rw [bind_parameters_take (params.map fun p => p.name), List.length_map]

end Sanetaka
